import Mathlib

/-!
Verification development for the `format` string-formatting library
(files `format.cc`, `format.h`, `sprint.h`).

The definitions below are a shallow embedding of the C++ source:
  * the output buffer regions produced by the formatters are modelled as
    `List Char`; pointer writes (`*p = c`) become `List.set` at the
    corresponding offset into the freshly grown region;
  * machine integers are modelled as `Nat`/`Int` with explicit `% 2^w`
    where the source relies on unsigned wraparound;
  * `throw FormatError(...)` becomes an `Except Err` error value;
  * C loops on integers (`value /= 100`, `n >>= 4`, ...) are written with
    an explicit structural fuel argument; the fuel passed by the wrappers
    is proved sufficient by the lemmas below, so the fuel-exhausted branch
    is unreachable;
  * `snprintf` (used only for finite floating-point values) and
    user-supplied custom formatting callbacks are external to the library
    and are modelled as distinguished `unmodelled` errors; no theorem in
    this file concerns those paths.

Uninitialised bytes of a freshly grown buffer region are modelled by the
byte `uninitChar` (0xAA); the proofs show every position of a returned
region is overwritten.
-/

set_option maxHeartbeats 1600000

/-- The character the source writes as `{` (written via its code point to
keep braces out of string literals). -/
def lbrace : Char := Char.ofNat 123

/-- The character the source writes as `}`. -/
def rbrace : Char := Char.ofNat 125

/-- A single-quote character, used when assembling error-message text. -/
def squote : Char := Char.ofNat 39

/-- The NUL character; `char sign = 0` and `char type = 0` in the source use
the zero byte as an "absent" marker, and `*s` at the end of a C string
reads NUL. -/
def nulChar : Char := Char.ofNat 0

/-- Marker for bytes of a grown buffer region the code has not written yet
(reading them in C would be reading indeterminate memory). -/
def uninitChar : Char := Char.ofNat 170

/-- Errors thrown by the engine.  `formatError msg` models
`throw fmt::FormatError(msg)`; `unknownType` models `ReportUnknownType`
(which also throws a `FormatError`, with a message built from the code and
kind).  The `unmodelled`/`ub` constructors mark executions that leave the
embedded fragment (platform `snprintf`, custom callbacks, out-of-bounds
argument reads). -/
inductive Err where
  | formatError (msg : List Char)
  | unknownType (code : Char) (kind : List Char)
  | ubArg
  | unmodelledFiniteDouble
  | unmodelledCustom
  | fuelOut
deriving DecidableEq, Repr

/-- `enum Alignment { ALIGN_DEFAULT, ALIGN_LEFT, ALIGN_RIGHT, ALIGN_CENTER,
ALIGN_NUMERIC }` from `format.h`. -/
inductive FmtAlign where
  | default
  | left
  | right
  | center
  | numeric
deriving DecidableEq, Repr

/-- Flag bit `SIGN_FLAG = 1` from `format.cc`. -/
def SIGN_FLAG : Nat := 1

/-- Flag bit `PLUS_FLAG = 2` from `format.cc`. -/
def PLUS_FLAG : Nat := 2

/-- Flag bit `HASH_FLAG = 4` from `format.cc`. -/
def HASH_FLAG : Nat := 4

/-- `struct FormatSpec` from `format.h`, with its constructor defaults
(`align = ALIGN_DEFAULT`, `flags = 0`, `width = 0`, `type = 0`,
`fill = ' '`). -/
structure FormatSpec where
  align : FmtAlign := .default
  flags : Nat := 0
  width : Nat := 0
  type : Char := nulChar
  fill : Char := ' '
deriving DecidableEq, Repr

/-- Classification of a floating-point value.  Only the sign bit and the
special/finite classification are observable in the embedded fragment:
finite values are handed to the platform `snprintf`. -/
inductive FloatClass where
  | nan
  | inf
  | finite
deriving DecidableEq, Repr

/-- A floating-point argument: its sign bit (the source tests `signbit`,
not `value < 0`) and its classification. -/
structure FloatVal where
  sign : Bool
  cls : FloatClass
deriving DecidableEq, Repr

/-- The tagged union `Formatter::Arg` from `format.h` (types
`INT, UINT, LONG, ULONG, DOUBLE, LONG_DOUBLE, CHAR, STRING, POINTER,
CUSTOM`; `WSTRING` has no constructor in the source either).  `int` is
32-bit, `long` 64-bit (LP64); strings are modelled as non-null with their
explicit length (`Arg(const std::string&)`). -/
inductive Arg where
  | int (v : Int)
  | uint (v : Nat)
  | long (v : Int)
  | ulong (v : Nat)
  | double (v : FloatVal)
  | longdouble (v : FloatVal)
  | char (c : Char)
  | string (s : List Char)
  | pointer (a : Nat)
  | custom
deriving DecidableEq, Repr

/-- `arg.type <= LAST_NUMERIC_TYPE` (the numeric tags come first in the
`Type` enum). -/
def isNumericArg : Arg → Bool
  | .int _ | .uint _ | .long _ | .ulong _ | .double _ | .longdouble _ => true
  | _ => false

/-- `arg.type == UINT || arg.type == ULONG` (used by `CheckSign`). -/
def isUnsignedArg : Arg → Bool
  | .uint _ | .ulong _ => true
  | _ => false

/-- `arg.type == DOUBLE || arg.type == LONG_DOUBLE`. -/
def isFloatArg : Arg → Bool
  | .double _ | .longdouble _ => true
  | _ => false

/-- Reading `*s` on a NUL-terminated C string: the head of the remaining
character list, or NUL at the end. -/
def cur (s : List Char) : Char := s.headD nulChar

/-- The test `'0' <= *s && *s <= '9'`. -/
def isDigitChar (c : Char) : Bool := decide ('0' ≤ c) && decide (c ≤ '9')

/-- `std::fill_n(buf + start, n, c)` on a region modelled as a list:
set `n` positions starting at `start` to `c`. -/
def setRange : List Char → Nat → Nat → Char → List Char
  | buf, _, 0, _ => buf
  | buf, start, n + 1, c => setRange (buf.set start c) (start + 1) n c

/-- `std::copy(content, content + len, buf + base)`: write the characters
of `l` into the region starting at offset `base`. -/
def overwrite : List Char → Nat → List Char → List Char
  | buf, _, [] => buf
  | buf, base, c :: cs => overwrite (buf.set base c) (base + 1) cs

/-- `FillPadding` from `format.cc`: fill `padding/2` characters before the
content area and the rest after it; returns the buffer and the offset of
the content area. -/
def fillPadding (buf : List Char) (totalSize contentSize : Nat) (fill : Char) :
    List Char × Nat :=
  let padding := totalSize - contentSize
  let leftPadding := padding / 2
  let buf := setRange buf 0 leftPadding fill
  let buf := setRange buf (leftPadding + contentSize) (padding - leftPadding) fill
  (buf, leftPadding)

/-- `BasicFormatter::PrepareFilledBuffer` from `format.cc`.  Returns the
grown region (of length `max spec.width size`) and the offset of the
returned pointer `p - 1` (the last content position, where the caller
starts writing digits backwards).  Note the source writes `*p = sign`
(possibly the zero byte) unconditionally in several branches; callers
overwrite that byte when no sign is present. -/
def prepareFilledBuffer (size : Nat) (spec : FormatSpec) (sign : Char) :
    List Char × Nat :=
  if spec.width ≤ size then
    let p := (List.replicate size uninitChar).set 0 sign
    (p, size - 1)
  else
    let buf := List.replicate spec.width uninitChar
    if spec.align = .left then
      let buf := buf.set 0 sign
      let buf := setRange buf size (spec.width - size) spec.fill
      (buf, size - 1)
    else if spec.align = .center then
      let (buf, content) := fillPadding buf spec.width size spec.fill
      let buf := buf.set content sign
      (buf, content + size - 1)
    else if spec.align = .numeric then
      if sign ≠ nulChar then
        -- *p++ = sign; --size; then fill(p, end - size)
        let buf := buf.set 0 sign
        let buf := setRange buf 1 (spec.width - size) spec.fill
        (buf, spec.width - 1)
      else
        let buf := setRange buf 0 (spec.width - size) spec.fill
        (buf, spec.width - 1)
    else
      -- ALIGN_RIGHT and ALIGN_DEFAULT: *(end - size) = sign; fill(p, end - size)
      let buf := buf.set (spec.width - size) sign
      let buf := setRange buf 0 (spec.width - size) spec.fill
      (buf, spec.width - 1)

/-- `CountDigits` from `format.cc` (the loop divides by 10000 per
iteration; `fuel` makes the recursion structural, `countDigits` passes a
provably sufficient amount). -/
def countDigitsAux : Nat → Nat → Nat
  | 0, _ => 1
  | fuel + 1, n =>
    if n < 10 then 1
    else if n < 100 then 2
    else if n < 1000 then 3
    else if n < 10000 then 4
    else 4 + countDigitsAux fuel (n / 10000)

/-- `CountDigits(n)`. -/
def countDigits (n : Nat) : Nat := countDigitsAux n n

/-- The 200-byte digit-pair lookup table `DIGITS` from `format.cc`. -/
def DIGITS : List Char :=
  ("0001020304050607080910111213141516171819"
   ++ "2021222324252627282930313233343536373839"
   ++ "4041424344454647484950515253545556575859"
   ++ "6061626364656667686970717273747576777879"
   ++ "8081828384858687888990919293949596979899").data

/-- The character `'0' + d`. -/
def digitChar (d : Nat) : Char := Char.ofNat (48 + d)

/-- The loop body of `FormatDecimal`: `d` is the current value of the
(pre-decremented) `num_digits` index, i.e. the offset of the last digit
still to be written, relative to `base`.  `value / 100` strictly decreases
while `value >= 100`, so fuel `value + 1` suffices. -/
def formatDecimalAux : Nat → List Char → Nat → Nat → Nat → List Char
  | 0, buf, _, _, _ => buf
  | fuel + 1, buf, base, value, d =>
    if 100 ≤ value then
      let idx := value % 100 * 2
      let buf := buf.set (base + d) (DIGITS.getD (idx + 1) uninitChar)
      let buf := buf.set (base + d - 1) (DIGITS.getD idx uninitChar)
      formatDecimalAux fuel buf base (value / 100) (d - 2)
    else if value < 10 then
      buf.set base (digitChar value)
    else
      (buf.set (base + 1) (DIGITS.getD (value * 2 + 1) uninitChar)).set base
        (DIGITS.getD (value * 2) uninitChar)

/-- `FormatDecimal(buffer + base, value, num_digits)` (the source first
executes `--num_digits`). -/
def formatDecimal (buf : List Char) (base value numDigits : Nat) : List Char :=
  formatDecimalAux (value + 1) buf base value (numDigits - 1)

/-- The digit-counting do-while loops `do { ++size; } while ((n >>= 4) != 0)`
(and the octal analogue with `>>= 3`): number of base-`b` digits of `n`,
at least 1.  `n >> 4 = n / 16`, `n >> 3 = n / 8`. -/
def baseLen : Nat → Nat → Nat → Nat
  | 0, _, _ => 1
  | fuel + 1, n, b => if b ≤ n then 1 + baseLen fuel (n / b) b else 1

/-- The digit-writing do-while loops of the `x`/`X` and `o` cases of
`FormatInt`: write `dig (n % b)` at offset `p`, moving left while
`(n /= b) != 0` (`n & 0xf = n % 16`, `n & 7 = n % 8`). -/
def writeDigitsAux : Nat → List Char → Nat → Nat → Nat → (Nat → Char) → List Char
  | 0, buf, _, _, _, _ => buf
  | fuel + 1, buf, p, n, b, dig =>
    let buf := buf.set p (dig (n % b))
    if b ≤ n then writeDigitsAux fuel buf (p - 1) (n / b) b dig else buf

/-- The lowercase hex digit table `"0123456789abcdef"`. -/
def lowHexChars : List Char := "0123456789abcdef".data

/-- The uppercase hex digit table `"0123456789ABCDEF"`. -/
def upHexChars : List Char := "0123456789ABCDEF".data

/-- `BasicFormatter::FormatInt<T>` from `format.cc`, for a `w`-bit integer
type (`signed = true` for `int`/`long`, where `IntTraits<T>::IsNegative`
tests `value < 0`; for unsigned types it is constantly false).  The
conversion `UnsignedType abs_value = value` is `v mod 2^w`, and
`abs_value = 0 - abs_value` is negation mod `2^w`.  Returns the region the
call appends to the output buffer. -/
def formatInt (w : Nat) (signed : Bool) (v : Int) (spec : FormatSpec) :
    Except Err (List Char) :=
  let uval : Nat := (v % ((2 : Int) ^ w)).toNat
  let neg : Bool := signed && decide (v < 0)
  let sign : Char :=
    if neg then '-'
    else if spec.flags &&& SIGN_FLAG ≠ 0 then
      (if spec.flags &&& PLUS_FLAG ≠ 0 then '+' else ' ')
    else nulChar
  let size1 : Nat := if neg then 1 else if spec.flags &&& SIGN_FLAG ≠ 0 then 1 else 0
  let absValue : Nat := if neg then (2 ^ w - uval) % 2 ^ w else uval
  if spec.type = nulChar ∨ spec.type = 'd' then
    let numDigits := countDigits absValue
    let (buf, ret) := prepareFilledBuffer (size1 + numDigits) spec sign
    -- char *p = PrepareFilledBuffer(...) - num_digits + 1 (ret + 1 ≥ numDigits)
    .ok (formatDecimal buf (ret + 1 - numDigits) absValue numDigits)
  else if spec.type = 'x' ∨ spec.type = 'X' then
    let pp := spec.flags &&& HASH_FLAG ≠ 0
    let sd := baseLen absValue absValue 16
    let size := size1 + (if pp then 2 else 0) + sd
    let (buf, ret) := prepareFilledBuffer size spec sign
    let tbl := if spec.type = 'x' then lowHexChars else upHexChars
    let buf := writeDigitsAux (absValue + 1) buf ret absValue 16
      (fun d => tbl.getD d uninitChar)
    .ok (if pp then (buf.set (ret - sd) spec.type).set (ret - sd - 1) '0' else buf)
  else if spec.type = 'o' then
    let pp := spec.flags &&& HASH_FLAG ≠ 0
    let sd := baseLen absValue absValue 8
    let size := size1 + (if pp then 1 else 0) + sd
    let (buf, ret) := prepareFilledBuffer size spec sign
    let buf := writeDigitsAux (absValue + 1) buf ret absValue 8
      (fun d => digitChar d)
    .ok (if pp then buf.set (ret - sd) '0' else buf)
  else
    .error (.unknownType spec.type ("integer").data)

/-- `BasicFormatter::FormatString(s, size, spec)` from `format.cc`.
Returns the appended region and the offset `out` within it where the
content was copied (the source returns that pointer). -/
def formatString (s : List Char) (spec : FormatSpec) : List Char × Nat :=
  if s.length < spec.width then
    let out := List.replicate spec.width uninitChar
    if spec.align = .right then
      let out := setRange out 0 (spec.width - s.length) spec.fill
      (overwrite out (spec.width - s.length) s, spec.width - s.length)
    else if spec.align = .center then
      let (out, c) := fillPadding out spec.width s.length spec.fill
      (overwrite out c s, c)
    else
      let out := setRange out s.length (spec.width - s.length) spec.fill
      (overwrite out 0 s, 0)
  else
    (overwrite (List.replicate s.length uninitChar) 0 s, 0)

/-- The `CHAR` case of `Formatter::DoFormat` (type-code check, then the
width/alignment logic inlined there, then `*out = arg.int_value`). -/
def formatChar (c : Char) (spec : FormatSpec) : Except Err (List Char) :=
  if spec.type ≠ nulChar ∧ spec.type ≠ 'c' then
    .error (.unknownType spec.type ("char").data)
  else if 1 < spec.width then
    let out := List.replicate spec.width uninitChar
    if spec.align = .right then
      let out := setRange out 0 (spec.width - 1) spec.fill
      .ok (out.set (spec.width - 1) c)
    else if spec.align = .center then
      let (out, off) := fillPadding out spec.width 1 spec.fill
      .ok (out.set off c)
    else
      let out := setRange out 1 (spec.width - 1) spec.fill
      .ok (out.set 0 c)
  else
    .ok [c]

/-- The literal `"nan"`. -/
def nanLower : List Char := "nan".data

/-- The literal `"NAN"`. -/
def nanUpper : List Char := "NAN".data

/-- The literal `"inf"`. -/
def infLower : List Char := "inf".data

/-- The literal `"INF"`. -/
def infUpper : List Char := "INF".data

/-- `BasicFormatter::FormatDouble<T>` from `format.cc` (non-MSVC, so `F`
falls through to the uppercase cases).  Only the NaN/infinity branches are
inside the embedded fragment: finite values delegate digit generation to
the platform `snprintf`, which is external, so that branch returns the
distinguished `unmodelledFiniteDouble` error.  For the special values the
source formats `" nan"`/`" inf"` (with a leading slot iff a sign character
is present) through `FormatString` and then overwrites the slot with the
sign via the returned content pointer. -/
def formatDouble (v : FloatVal) (spec : FormatSpec) (precision : Int) :
    Except Err (List Char) :=
  if spec.type = nulChar ∨ spec.type = 'e' ∨ spec.type = 'f' ∨ spec.type = 'g'
      ∨ spec.type = 'F' ∨ spec.type = 'E' ∨ spec.type = 'G' then
    let upper := spec.type = 'F' ∨ spec.type = 'E' ∨ spec.type = 'G'
    let sign : Char :=
      if v.sign then '-'
      else if spec.flags &&& SIGN_FLAG ≠ 0 then
        (if spec.flags &&& PLUS_FLAG ≠ 0 then '+' else ' ')
      else nulChar
    if v.cls = .nan then
      let lit := if upper then nanUpper else nanLower
      let content := if sign ≠ nulChar then ' ' :: lit else lit
      let (buf, out) := formatString content spec
      .ok (if sign ≠ nulChar then buf.set out sign else buf)
    else if v.cls = .inf then
      let lit := if upper then infUpper else infLower
      let content := if sign ≠ nulChar then ' ' :: lit else lit
      let (buf, out) := formatString content spec
      .ok (if sign ≠ nulChar then buf.set out sign else buf)
    else
      .error .unmodelledFiniteDouble
  else
    .error (.unknownType spec.type ("double").data)

/-- Message `"invalid argument index in format string"`. -/
def msgInvalidIndex : List Char := "invalid argument index in format string".data

/-- Message `"cannot switch from manual to automatic argument indexing"`. -/
def msgManualToAuto : List Char :=
  "cannot switch from manual to automatic argument indexing".data

/-- Message `"cannot switch from automatic to manual argument indexing"`. -/
def msgAutoToManual : List Char :=
  "cannot switch from automatic to manual argument indexing".data

/-- Message `"number is too big in format"`. -/
def msgNumberTooBig : List Char := "number is too big in format".data

/-- Message `"argument index is out of range in format"`. -/
def msgIndexRange : List Char := "argument index is out of range in format".data

/-- Message `"unmatched '\x7b' in format"`. -/
def msgUnmatchedL : List Char :=
  "unmatched ".data ++ [squote, lbrace, squote] ++ " in format".data

/-- Message `"unmatched '\x7d' in format"`. -/
def msgUnmatchedR : List Char :=
  "unmatched ".data ++ [squote, rbrace, squote] ++ " in format".data

/-- Message `"invalid fill character '\x7b'"`. -/
def msgInvalidFill : List Char :=
  "invalid fill character ".data ++ [squote, lbrace, squote]

/-- Message of `Format("format specifier '\x7b0\x7d' requires numeric argument") << c`. -/
def msgSpecNumeric (c : Char) : List Char :=
  "format specifier ".data ++ [squote, c, squote] ++ " requires numeric argument".data

/-- Message of `Format("format specifier '\x7b0\x7d' requires signed argument") << c`. -/
def msgSpecSigned (c : Char) : List Char :=
  "format specifier ".data ++ [squote, c, squote] ++ " requires signed argument".data

/-- Message `"negative precision in format"`. -/
def msgNegPrecision : List Char := "negative precision in format".data

/-- Message `"precision is not integer"`. -/
def msgPrecisionNotInt : List Char := "precision is not integer".data

/-- Message `"missing precision in format"`. -/
def msgMissingPrecision : List Char := "missing precision in format".data

/-- Message `"precision specifier requires floating-point argument"`. -/
def msgPrecisionFloat : List Char :=
  "precision specifier requires floating-point argument".data

/-- The scan loop of `Formatter::ReportError`: starting from
`num_open_braces_` open braces, scan the rest of the format string; if a
`\x7d` closes the current field the intended message is thrown, otherwise
`"unmatched '\x7b' in format"`. -/
def reportErrorScan : Int → List Char → List Char → Err
  | _, [], _ => .formatError msgUnmatchedL
  | nOpen, c :: rest, msg =>
    if c = lbrace then reportErrorScan (nOpen + 1) rest msg
    else if c = rbrace then
      (if nOpen - 1 = 0 then .formatError msg else reportErrorScan (nOpen - 1) rest msg)
    else reportErrorScan nOpen rest msg

/-- `Formatter::ReportError(s, message)`. -/
def reportError (nOpen : Int) (s : List Char) (msg : List Char) : Err :=
  reportErrorScan nOpen s msg

/-- `Formatter::ParseUInt`: parse a digit run in 32-bit unsigned
arithmetic (`value * 10 + (*s++ - '0')`, i.e. mod `2^32`), reporting
"number is too big" when the check `new_value < value` fires.  The first
character is a digit at every call site (the source asserts it); reaching
the end of the input here is outside the model. -/
def parseUIntAux (nOpen : Int) : List Char → Nat → Except Err (Nat × List Char)
  | [], _ => .error .ubArg
  | c :: rest, value =>
    let newValue := (value * 10 + (c.toNat - 48)) % 2 ^ 32
    if newValue < value then .error (reportError nOpen rest msgNumberTooBig)
    else if isDigitChar (cur rest) then parseUIntAux nOpen rest newValue
    else .ok (newValue, rest)

/-- `Formatter::ParseArgIndex`: resolve the argument for a field given the
indexing cursor `next` (`next_arg_index_`; `-1` once manual indexing is in
use), returning the argument, the new cursor, and the rest of the input.
The automatic branch of the source indexes `args_[arg_index]` without a
bounds check; that out-of-bounds read is modelled by the `ubArg` error. -/
def parseArgIndexE (args : List Arg) (next : Int) (nOpen : Int) (s : List Char) :
    Except Err (Arg × Int × List Char) :=
  if ¬ isDigitChar (cur s) then
    if cur s ≠ rbrace ∧ cur s ≠ ':' then .error (reportError nOpen s msgInvalidIndex)
    else if next < 0 then .error (reportError nOpen s msgManualToAuto)
    else
      match args.get? next.toNat with
      | some a => .ok (a, next + 1, s)
      | none => .error .ubArg
  else
    if 0 < next then .error (reportError nOpen s msgAutoToManual)
    else
      match parseUIntAux nOpen s 0 with
      | .error e => .error e
      | .ok (idx, rest) =>
        if args.length ≤ idx then .error (reportError nOpen rest msgIndexRange)
        else
          match args.get? idx with
          | some a => .ok (a, -1, rest)
          | none => .error .ubArg

/-- `Formatter::CheckSign` (without the `++s`, which the caller performs). -/
def checkSign (arg : Arg) (s : List Char) : Except Err Unit :=
  if ¬ isNumericArg arg then .error (reportError 1 s (msgSpecNumeric (cur s)))
  else if isUnsignedArg arg then .error (reportError 1 s (msgSpecSigned (cur s)))
  else .ok ()

/-- The `switch (*p)` of the fill/alignment parser. -/
def alignOf (c : Char) : FmtAlign :=
  if c = '<' then .left
  else if c = '>' then .right
  else if c = '=' then .numeric
  else if c = '^' then .center
  else .default

/-- The fill-and-alignment parser of `Formatter::DoFormat` (the unrolled
two-position `do { ... } while (--p >= s)` lookahead: first the character
after the current one, then the current one). -/
def parseFillAlign (arg : Arg) (s : List Char) (spec : FormatSpec) :
    Except Err (FormatSpec × List Char) :=
  let c := cur s
  if c = nulChar then .ok (spec, s)
  else
    let a2 := alignOf (cur s.tail)
    if a2 ≠ .default then
      if c = rbrace then .ok ({spec with align := a2}, s)
      else if c = lbrace then .error (reportError 1 s msgInvalidFill)
      else
        let s := s.tail.tail
        let spec := {spec with align := a2, fill := c}
        if a2 = .numeric ∧ ¬ isNumericArg arg then
          .error (reportError 1 s (msgSpecNumeric '='))
        else .ok (spec, s)
    else
      let a1 := alignOf c
      if a1 ≠ .default then
        let s := s.tail
        let spec := {spec with align := a1}
        if a1 = .numeric ∧ ¬ isNumericArg arg then
          .error (reportError 1 s (msgSpecNumeric '='))
        else .ok (spec, s)
      else .ok (spec, s)

/-- The sign parser of `Formatter::DoFormat` (`switch (*s)` over
`'+'`, `'-'`, `' '`). -/
def parseSign (arg : Arg) (s : List Char) (spec : FormatSpec) :
    Except Err (FormatSpec × List Char) :=
  let c := cur s
  if c = '+' then do
    let _ ← checkSign arg s
    .ok ({spec with flags := spec.flags ||| (SIGN_FLAG ||| PLUS_FLAG)}, s.tail)
  else if c = '-' then do
    let _ ← checkSign arg s
    .ok (spec, s.tail)
  else if c = ' ' then do
    let _ ← checkSign arg s
    .ok ({spec with flags := spec.flags ||| SIGN_FLAG}, s.tail)
  else .ok (spec, s)

/-- The `'#'` (alternate form) parser of `Formatter::DoFormat`. -/
def parseHash (arg : Arg) (s : List Char) (spec : FormatSpec) :
    Except Err (FormatSpec × List Char) :=
  if cur s = '#' then
    if ¬ isNumericArg arg then .error (reportError 1 s (msgSpecNumeric '#'))
    else .ok ({spec with flags := spec.flags ||| HASH_FLAG}, s.tail)
  else .ok (spec, s)

/-- The width-and-zero-flag parser of `Formatter::DoFormat`: a leading
`'0'` forces numeric alignment with fill `'0'` (for numeric arguments
only), then the whole digit run is the width, which must not exceed
`INT_MAX`. -/
def parseWidth (arg : Arg) (s : List Char) (spec : FormatSpec) :
    Except Err (FormatSpec × List Char) :=
  if isDigitChar (cur s) then do
    let spec ←
      if cur s = '0' then
        if ¬ isNumericArg arg then .error (reportError 1 s (msgSpecNumeric '0'))
        else .ok {spec with align := .numeric, fill := '0'}
      else .ok spec
    match parseUIntAux 1 s 0 with
    | .error e => .error e
    | .ok (value, rest) =>
      if 2147483647 < value then .error (reportError 1 rest msgNumberTooBig)
      else .ok ({spec with width := value}, rest)
  else .ok (spec, s)

/-- The precision parser of `Formatter::DoFormat`: after `'.'`, either a
literal digit run or a nested `\x7bindex\x7d` field whose argument must be
a non-negative integer; precision is only legal for floating-point
arguments.  Returns the precision (`-1` when absent) together with the
updated indexing cursor (the nested field shares `next_arg_index_`). -/
def parsePrecision (args : List Arg) (arg : Arg) (next : Int) (s : List Char) :
    Except Err (Int × Int × List Char) :=
  if cur s = '.' then
    let s := s.tail
    if isDigitChar (cur s) then
      match parseUIntAux 1 s 0 with
      | .error e => .error e
      | .ok (value, rest) =>
        if 2147483647 < value then .error (reportError 1 rest msgNumberTooBig)
        else if ¬ isFloatArg arg then .error (reportError 1 rest msgPrecisionFloat)
        else .ok ((value : Int), next, rest)
    else if cur s = lbrace then
      let s := s.tail
      match parseArgIndexE args next 2 s with
      | .error e => .error e
      | .ok (parg, next1, s1) =>
        let value : Except Err Int :=
          match parg with
          | .int v => if v < 0 then .error (reportError 2 s1 msgNegPrecision) else .ok v
          | .uint v => .ok (v : Int)
          | .long v => if v < 0 then .error (reportError 2 s1 msgNegPrecision) else .ok v
          | .ulong v => .ok (v : Int)
          | _ => .error (reportError 2 s1 msgPrecisionNotInt)
        match value with
        | .error e => .error e
        | .ok value =>
          if 2147483647 < value then .error (reportError 2 s1 msgNumberTooBig)
          else if cur s1 = rbrace then
            if ¬ isFloatArg arg then
              .error (reportError 1 s1.tail msgPrecisionFloat)
            else .ok (value, next1, s1.tail)
          else .error (.formatError msgUnmatchedL)
    else .error (reportError 1 s msgMissingPrecision)
  else .ok (-1, next, s)

/-- The type-code parser: `if (*s != '\x7d' && *s) spec.type = *s++;`. -/
def parseType (s : List Char) (spec : FormatSpec) : FormatSpec × List Char :=
  if cur s ≠ rbrace ∧ cur s ≠ nulChar then ({spec with type := cur s}, s.tail)
  else (spec, s)

/-- The `switch (arg.type)` dispatch at the end of `Formatter::DoFormat`.
Strings are modelled as non-null with explicit length, so the
null-pointer / lazy-`strlen` handling of the `STRING` case is not
reachable; `uintptr_t` is 64-bit; the custom-type callback is external
code. -/
def dispatchArg (arg : Arg) (spec : FormatSpec) (precision : Int) :
    Except Err (List Char) :=
  match arg with
  | .int v => formatInt 32 true v spec
  | .uint v => formatInt 32 false (v : Int) spec
  | .long v => formatInt 64 true v spec
  | .ulong v => formatInt 64 false (v : Int) spec
  | .double fv => formatDouble fv spec precision
  | .longdouble fv => formatDouble fv spec precision
  | .char c => formatChar c spec
  | .string str =>
    if spec.type ≠ nulChar ∧ spec.type ≠ 's' then
      .error (.unknownType spec.type ("string").data)
    else .ok (formatString str spec).1
  | .pointer a =>
    formatInt 64 false (a : Int) {spec with flags := HASH_FLAG, type := 'x'}
  | .custom =>
    if spec.type ≠ nulChar then .error (.unknownType spec.type ("object").data)
    else .error .unmodelledCustom

/-- The body of a replacement field after the argument has been resolved:
parse the specifier (if a `':'` follows), check the closing `\x7d`, then
dispatch to the renderer.  Returns the appended region, the updated
indexing cursor, and the input after the field. -/
def parseSpecDispatch (args : List Arg) (arg : Arg) (next : Int) (s : List Char) :
    Except Err (List Char × Int × List Char) :=
  if cur s = ':' then
    match parseFillAlign arg s.tail {} with
    | .error e => .error e
    | .ok (spec, s) =>
    match parseSign arg s spec with
    | .error e => .error e
    | .ok (spec, s) =>
    match parseHash arg s spec with
    | .error e => .error e
    | .ok (spec, s) =>
    match parseWidth arg s spec with
    | .error e => .error e
    | .ok (spec, s) =>
    match parsePrecision args arg next s with
    | .error e => .error e
    | .ok (precision, next, s) =>
      let (spec, s) := parseType s spec
      if cur s = rbrace then
        match dispatchArg arg spec precision with
        | .error e => .error e
        | .ok region => .ok (region, next, s.tail)
      else .error (.formatError msgUnmatchedL)
  else
    if cur s = rbrace then
      match dispatchArg arg {} (-1) with
      | .error e => .error e
      | .ok region => .ok (region, next, s.tail)
    else .error (.formatError msgUnmatchedL)

/-- The main scan loop of `Formatter::DoFormat`: copy literal text, handle
`\x7b\x7b`/`\x7d\x7d` escapes, and process each replacement field.  Each
iteration consumes at least one character, so fuel `s.length + 1` is
sufficient. -/
def doFormatAux (args : List Arg) : Nat → Int → List Char → List Char →
    Except Err (List Char)
  | 0, _, _, _ => .error .fuelOut
  | fuel + 1, next, s, acc =>
    match s with
    | [] => .ok acc
    | c :: rest =>
      if c ≠ lbrace ∧ c ≠ rbrace then doFormatAux args fuel next rest (acc ++ [c])
      else if cur rest = c then doFormatAux args fuel next rest.tail (acc ++ [c])
      else if c = rbrace then .error (.formatError msgUnmatchedR)
      else
        match parseArgIndexE args next 1 rest with
        | .error e => .error e
        | .ok (arg, next1, s1) =>
          match parseSpecDispatch args arg next1 s1 with
          | .error e => .error e
          | .ok (region, next2, s2) => doFormatAux args fuel next2 s2 (acc ++ region)

/-- One complete formatting call: `Formatter::DoFormat` on a template and
argument list, starting with `next_arg_index_ = 0` and an empty buffer. -/
def render (tmpl : List Char) (args : List Arg) : Except Err (List Char) :=
  doFormatAux args (tmpl.length + 1) 0 tmpl []

/-- The size/capacity state of `internal::Array<T, SIZE>` from `format.h`
(the element storage is irrelevant to the capacity accounting). -/
structure ArrayBuf where
  size : Nat
  capacity : Nat
deriving DecidableEq, Repr

/-- `Array<char, 500>()` (`INLINE_BUFFER_SIZE = 500` in `BasicFormatter`). -/
def arrInit : ArrayBuf := { size := 0, capacity := 500 }

/-- `Array::Grow(size)`: `capacity_ = std::max(size, capacity_ + capacity_ / 2)`. -/
def arrGrow (a : ArrayBuf) (size : Nat) : ArrayBuf :=
  { a with capacity := max size (a.capacity + a.capacity / 2) }

/-- `Array::append(begin, end)` with `n = end - begin` elements: note the
source passes `num_elements`, not `size_ + num_elements`, to `Grow`. -/
def arrAppend (a : ArrayBuf) (n : Nat) : ArrayBuf :=
  let a := if a.capacity < a.size + n then arrGrow a n else a
  { a with size := a.size + n }

/-- `Array::push_back(value)`. -/
def arrPushBack (a : ArrayBuf) : ArrayBuf :=
  let a := if a.size = a.capacity then arrGrow a (a.size + 1) else a
  { a with size := a.size + 1 }

/-- `Array::resize(new_size)`. -/
def arrResize (a : ArrayBuf) (newSize : Nat) : ArrayBuf :=
  let a := if a.capacity < newSize then arrGrow a newSize else a
  { a with size := newSize }

/-- `Array::reserve(capacity)`. -/
def arrReserve (a : ArrayBuf) (cap : Nat) : ArrayBuf :=
  if a.capacity < cap then arrGrow a cap else a

/-- The buffer invariant: the logical size never exceeds the physical
capacity (the copy in `append` writes `ptr_[size_ .. size_+n)`, so the
invariant is exactly what makes that write in-bounds). -/
def arrInv (a : ArrayBuf) : Prop := a.size ≤ a.capacity

/-- The template `"\x7b\x7d"`. -/
def tmplAuto : List Char := [lbrace, rbrace]

/-- The template `"\x7b:d\x7d"`. -/
def tmplD : List Char := [lbrace, ':', 'd', rbrace]

/-- The template `"\x7b0\x7d\x7b\x7d"` (manual field then automatic field). -/
def tmplManualAuto : List Char := [lbrace, '0', rbrace, lbrace, rbrace]

/-- The template `"\x7b\x7d\x7b0\x7d"` (automatic field then manual field). -/
def tmplAutoManual : List Char := [lbrace, rbrace, lbrace, '0', rbrace]

/-- The template `"\x7b:#06x\x7d"`. -/
def tmplHashZeroHex : List Char := [lbrace, ':', '#', '0', '6', 'x', rbrace]

/-- The template `"\x7b:4\x7d"`. -/
def tmplWidth4 : List Char := [lbrace, ':', '4', rbrace]

/-- Specification-side canonical decimal representation of a natural
number: the base-10 digits from `Nat.digits` (most significant first,
no leading zeros), with `0` written as `"0"`. -/
def decimalRep (n : Nat) : List Char :=
  if n = 0 then ['0'] else ((Nat.digits 10 n).map digitChar).reverse

/-- Specification-side canonical decimal representation of an integer:
a single leading `'-'` exactly for negative values, followed by the
decimal digits of the absolute value. -/
def intDecChars (v : Int) : List Char :=
  (if v < 0 then ['-'] else []) ++ decimalRep v.natAbs

/-- Specification-side canonical base-`b` representation of a natural
number, with digits rendered through `dig` (most significant first, no
leading zeros; `0` is the single digit `dig 0`). -/
def bRep (b : Nat) (dig : Nat → Char) (n : Nat) : List Char :=
  if n = 0 then [dig 0] else ((Nat.digits b n).map dig).reverse

/-- The number of fill characters `FormatString` places before the
content for a given alignment, width and content length. -/
def lpadOf (spec : FormatSpec) (len : Nat) : Nat :=
  if len < spec.width then
    (if spec.align = .right then spec.width - len
     else if spec.align = .center then (spec.width - len) / 2
     else 0)
  else 0

/-- The number of fill characters `FormatString` places after the
content. -/
def rpadOf (spec : FormatSpec) (len : Nat) : Nat :=
  max spec.width len - len - lpadOf spec len

/-! ### List infrastructure lemmas -/

theorem take_set_succ (buf : List Char) (base : Nat) (a : Char)
    (h : base < buf.length) :
    (buf.set base a).take (base + 1) = buf.take base ++ [a] := by
  induction buf generalizing base with
  | nil => simp at h
  | cons x xs ih =>
    cases base with
    | zero => simp [List.set]
    | succ b =>
      simp only [List.set, List.take_succ_cons]
      rw [ih b (by simpa using h)]
      simp

theorem drop_set_of_lt_idx (l : List Char) (i j : Nat) (a : Char) (h : i < j) :
    (l.set i a).drop j = l.drop j := by
  induction l generalizing i j with
  | nil => simp
  | cons x xs ih =>
    cases i with
    | zero =>
      cases j with
      | zero => omega
      | succ j2 => simp [List.set]
    | succ i2 =>
      cases j with
      | zero => omega
      | succ j2 =>
        simp only [List.set, List.drop_succ_cons]
        exact ih i2 j2 (by omega)

theorem setRange_length (n : Nat) :
    ∀ (buf : List Char) (start : Nat) (c : Char),
      (setRange buf start n c).length = buf.length := by
  induction n with
  | zero => intro buf start c; rfl
  | succ m ih =>
    intro buf start c
    rw [setRange, ih]
    simp

theorem overwrite_length (l : List Char) :
    ∀ (buf : List Char) (base : Nat), (overwrite buf base l).length = buf.length := by
  induction l with
  | nil => intro buf base; rfl
  | cons a t ih =>
    intro buf base
    rw [overwrite, ih]
    simp

theorem setRange_eq (n : Nat) :
    ∀ (buf : List Char) (start : Nat) (c : Char), start + n ≤ buf.length →
      setRange buf start n c
        = buf.take start ++ List.replicate n c ++ buf.drop (start + n) := by
  induction n with
  | zero => intro buf start c h; simp [setRange]
  | succ m ih =>
    intro buf start c h
    rw [setRange, ih (buf.set start c) (start + 1) c (by simp; omega)]
    rw [take_set_succ buf start c (by omega)]
    rw [drop_set_of_lt_idx buf start (start + 1 + m) c (by omega)]
    have harith : start + 1 + m = start + (m + 1) := by omega
    rw [harith]
    simp [List.replicate_succ, List.append_assoc]

theorem overwrite_eq (l : List Char) :
    ∀ (buf : List Char) (base : Nat), base + l.length ≤ buf.length →
      overwrite buf base l = buf.take base ++ l ++ buf.drop (base + l.length) := by
  induction l with
  | nil => intro buf base h; simp [overwrite]
  | cons a t ih =>
    intro buf base h
    simp only [List.length_cons] at h
    rw [overwrite, ih (buf.set base a) (base + 1) (by simp; omega)]
    rw [take_set_succ buf base a (by omega)]
    rw [drop_set_of_lt_idx buf base (base + 1 + t.length) a (by omega)]
    have harith : base + 1 + t.length = base + (t.length + 1) := by omega
    rw [harith]
    simp [List.append_assoc]

theorem overwrite_cons_succ (t : List Char) :
    ∀ (a : Char) (l : List Char) (n : Nat),
      overwrite (a :: l) (n + 1) t = a :: overwrite l n t := by
  induction t with
  | nil => intros; rfl
  | cons c cs ih =>
    intro a l n
    rw [overwrite]
    simp only [List.set]
    rw [ih, overwrite]

theorem overwrite_full (l : List Char) :
    ∀ (buf : List Char), buf.length = l.length → overwrite buf 0 l = l := by
  induction l with
  | nil =>
    intro buf h
    rw [List.length_nil, List.length_eq_zero] at h
    subst h
    rfl
  | cons a t ih =>
    intro buf h
    match buf with
    | [] => simp at h
    | b :: bs =>
      rw [overwrite]
      simp only [List.set]
      rw [show (0 : Nat) + 1 = 0 + 1 from rfl, overwrite_cons_succ]
      rw [ih bs (by simpa using h)]

theorem overwrite_set_append (l : List Char) :
    ∀ (buf : List Char) (base : Nat) (c : Char),
      overwrite (buf.set (base + l.length) c) base l = overwrite buf base (l ++ [c]) := by
  induction l with
  | nil => intro buf base c; simp [overwrite]
  | cons a t ih =>
    intro buf base c
    have harith : base + (a :: t).length = base + 1 + t.length := by simp; omega
    rw [overwrite, harith]
    rw [List.set_comm c a buf (show base + 1 + t.length ≠ base by omega)]
    rw [ih (buf.set base a) (base + 1) c]
    rfl

theorem set_append_len (l m : List Char) (c : Char) :
    (l ++ m).set l.length c = l ++ m.set 0 c := by
  induction l with
  | nil => simp
  | cons a t ih => simp [List.set, ih]

theorem overwrite_append_left (l1 : List Char) :
    ∀ (l2 s : List Char), overwrite (l1 ++ l2) l1.length s = l1 ++ overwrite l2 0 s := by
  induction l1 with
  | nil => simp
  | cons a t ih =>
    intro l2 s
    simp only [List.cons_append, List.length_cons]
    rw [overwrite_cons_succ, ih]

/-! ### Decimal and base-b digit lemmas -/

theorem digitChar_toNat (d : Nat) (h : d < 10) : (digitChar d).toNat = 48 + d := by
  interval_cases d <;> decide

theorem decimalRep_lt10 (n : Nat) (h : n < 10) : decimalRep n = [digitChar n] := by
  rcases Nat.eq_zero_or_pos n with h0 | h0
  · subst h0; decide
  · unfold decimalRep
    rw [if_neg (by omega)]
    rw [Nat.digits_def' (by norm_num : (1 : ℕ) < 10) h0]
    rw [Nat.mod_eq_of_lt h, Nat.div_eq_of_lt h, Nat.digits_zero]
    simp

theorem decimalRep_ge10_lt100 (n : Nat) (h10 : 10 ≤ n) (h100 : n < 100) :
    decimalRep n = [digitChar (n / 10), digitChar (n % 10)] := by
  unfold decimalRep
  rw [if_neg (by omega)]
  rw [Nat.digits_def' (by norm_num : (1 : ℕ) < 10) (by omega)]
  rw [Nat.digits_def' (by norm_num : (1 : ℕ) < 10) (show 0 < n / 10 by omega)]
  have hd : n / 10 < 10 := by omega
  rw [Nat.mod_eq_of_lt hd, show n / 10 / 10 = 0 by omega, Nat.digits_zero]
  simp

theorem decimalRep_ge100 (n : Nat) (h : 100 ≤ n) :
    decimalRep n
      = decimalRep (n / 100) ++ [digitChar (n / 10 % 10), digitChar (n % 10)] := by
  unfold decimalRep
  rw [if_neg (by omega), if_neg (show ¬ n / 100 = 0 by omega)]
  rw [Nat.digits_def' (by norm_num : (1 : ℕ) < 10) (by omega)]
  rw [Nat.digits_def' (by norm_num : (1 : ℕ) < 10) (show 0 < n / 10 by omega)]
  rw [show n / 10 / 10 = n / 100 by omega]
  simp

theorem decimalRep_ne_nil (n : Nat) : decimalRep n ≠ [] := by
  unfold decimalRep
  split
  · simp
  · simp [Nat.digits_ne_nil_iff_ne_zero, *]

theorem decimalRep_length_pos (n : Nat) : 0 < (decimalRep n).length :=
  List.length_pos.mpr (decimalRep_ne_nil n)

theorem countDigitsAux_spec :
    ∀ fuel n, n ≤ fuel → countDigitsAux fuel n = (decimalRep n).length := by
  intro fuel
  induction fuel with
  | zero =>
    intro n h
    interval_cases n
    decide
  | succ f ih =>
    intro n h
    rw [countDigitsAux]
    by_cases h10 : n < 10
    · rw [if_pos h10, decimalRep_lt10 n h10]
      simp
    · rw [if_neg h10]
      by_cases h100 : n < 100
      · rw [if_pos h100, decimalRep_ge10_lt100 n (by omega) h100]
        simp
      · rw [if_neg h100]
        have hrec100 : (decimalRep n).length = (decimalRep (n / 100)).length + 2 := by
          rw [decimalRep_ge100 n (by omega)]; simp
        by_cases h1000 : n < 1000
        · rw [if_pos h1000]
          rw [hrec100, decimalRep_lt10 (n / 100) (by omega)]
          simp
        · rw [if_neg h1000]
          by_cases h10000 : n < 10000
          · rw [if_pos h10000]
            rw [hrec100, decimalRep_ge10_lt100 (n / 100) (by omega) (by omega)]
            simp
          · rw [if_neg h10000]
            have hrec2 :
                (decimalRep (n / 100)).length = (decimalRep (n / 10000)).length + 2 := by
              have hdd : n / 100 / 100 = n / 10000 := by
                rw [Nat.div_div_eq_div_mul]
              rw [decimalRep_ge100 (n / 100) (by omega), hdd]; simp
            rw [ih (n / 10000) (by omega)]
            omega

theorem countDigits_eq_length (n : Nat) : countDigits n = (decimalRep n).length :=
  countDigitsAux_spec n n (Nat.le_refl n)

theorem countDigits_div100 (n : Nat) (h : 100 ≤ n) :
    countDigits (n / 100) = countDigits n - 2 := by
  rw [countDigits_eq_length, countDigits_eq_length, decimalRep_ge100 n h]
  simp

theorem DIGITS_pair_all :
    ∀ m, m < 100 →
      DIGITS.getD (m * 2) uninitChar = digitChar (m / 10) ∧
      DIGITS.getD (m * 2 + 1) uninitChar = digitChar (m % 10) := by
  decide

theorem mod100_mod10 (v : Nat) : v % 100 % 10 = v % 10 :=
  Nat.mod_mod_of_dvd v (by norm_num)

theorem mod100_div10 (v : Nat) : v % 100 / 10 = v / 10 % 10 := by
  have h := Nat.mod_mul_right_div_self v 10 10
  norm_num at h
  exact h

theorem formatDecimalAux_spec :
    ∀ fuel value buf base, value < fuel →
      formatDecimalAux fuel buf base value (countDigits value - 1)
        = overwrite buf base (decimalRep value) := by
  intro fuel
  induction fuel with
  | zero => intro value buf base h; omega
  | succ f ih =>
    intro value buf base h
    simp only [formatDecimalAux]
    by_cases h100 : 100 ≤ value
    · rw [if_pos h100]
      have hlen : countDigits value = (decimalRep value).length := countDigits_eq_length value
      have hlen1 : countDigits (value / 100) = countDigits value - 2 :=
        countDigits_div100 value h100
      have hpos : 0 < (decimalRep (value / 100)).length := decimalRep_length_pos _
      have hlenq : countDigits (value / 100) = (decimalRep (value / 100)).length :=
        countDigits_eq_length _
      have hge3 : 3 ≤ countDigits value := by omega
      have hd2 : countDigits value - 1 - 2 = countDigits (value / 100) - 1 := by omega
      rw [hd2]
      rw [ih (value / 100) _ base (by omega)]
      have htab := DIGITS_pair_all (value % 100) (by omega)
      have e1 : base + (countDigits value - 1) - 1
          = base + (decimalRep (value / 100)).length := by omega
      rw [e1]
      rw [overwrite_set_append (decimalRep (value / 100))
        (List.set buf (base + (countDigits value - 1))
          (DIGITS.getD (value % 100 * 2 + 1) uninitChar)) base
        (DIGITS.getD (value % 100 * 2) uninitChar)]
      have e2 : base + (countDigits value - 1)
          = base + (decimalRep (value / 100)
              ++ [DIGITS.getD (value % 100 * 2) uninitChar]).length := by
        simp; omega
      rw [e2]
      rw [overwrite_set_append
        (decimalRep (value / 100) ++ [DIGITS.getD (value % 100 * 2) uninitChar]) buf base
        (DIGITS.getD (value % 100 * 2 + 1) uninitChar)]
      congr 1
      rw [decimalRep_ge100 value h100]
      rw [htab.1, htab.2, mod100_mod10, mod100_div10]
      simp
    · rw [if_neg h100]
      by_cases h10 : value < 10
      · rw [if_pos h10]
        rw [decimalRep_lt10 value h10]
        simp [overwrite]
      · rw [if_neg h10]
        have htab := DIGITS_pair_all value (by omega)
        rw [decimalRep_ge10_lt100 value (by omega) (by omega)]
        rw [htab.1, htab.2]
        simp only [overwrite]
        rw [List.set_comm (digitChar (value % 10)) (digitChar (value / 10)) buf
          (show base + 1 ≠ base by omega)]

theorem formatDecimal_spec (buf : List Char) (base value : Nat) :
    formatDecimal buf base value (countDigits value) = overwrite buf base (decimalRep value) := by
  unfold formatDecimal
  exact formatDecimalAux_spec (value + 1) value buf base (by omega)

theorem bRep_lt (b : Nat) (dig : Nat → Char) (n : Nat) (hb : 1 < b) (h : n < b) :
    bRep b dig n = [dig n] := by
  rcases Nat.eq_zero_or_pos n with h0 | h0
  · subst h0; simp [bRep]
  · unfold bRep
    rw [if_neg (by omega)]
    rw [Nat.digits_def' hb h0, Nat.mod_eq_of_lt h, Nat.div_eq_of_lt h, Nat.digits_zero]
    simp

theorem bRep_ge (b : Nat) (dig : Nat → Char) (n : Nat) (hb : 1 < b) (h : b ≤ n) :
    bRep b dig n = bRep b dig (n / b) ++ [dig (n % b)] := by
  have hq : 0 < n / b := Nat.div_pos h (by omega)
  unfold bRep
  rw [if_neg (by omega), if_neg (by omega)]
  rw [Nat.digits_def' hb (by omega)]
  simp

theorem bRep_ne_nil (b : Nat) (dig : Nat → Char) (n : Nat) : bRep b dig n ≠ [] := by
  unfold bRep
  split
  · simp
  · simp [Nat.digits_ne_nil_iff_ne_zero, *]

theorem baseLen_spec (dig : Nat → Char) :
    ∀ fuel n b, 1 < b → n ≤ fuel → baseLen fuel n b = (bRep b dig n).length := by
  intro fuel
  induction fuel with
  | zero =>
    intro n b hb h
    interval_cases n
    simp [baseLen, bRep]
  | succ f ih =>
    intro n b hb h
    rw [baseLen]
    by_cases hbn : b ≤ n
    · have hdivlt : n / b < n := Nat.div_lt_self (by omega) hb
      rw [if_pos hbn, ih (n / b) b hb (by omega)]
      rw [bRep_ge b dig n hb hbn]
      simp
      omega
    · rw [if_neg hbn, bRep_lt b dig n hb (by omega)]
      simp

theorem writeDigitsAux_spec (dig : Nat → Char) :
    ∀ fuel n buf p b, 1 < b → n < fuel → (bRep b dig n).length ≤ p + 1 →
      writeDigitsAux fuel buf p n b dig
        = overwrite buf (p + 1 - (bRep b dig n).length) (bRep b dig n) := by
  intro fuel
  induction fuel with
  | zero => intro n buf p b hb h hp; omega
  | succ f ih =>
    intro n buf p b hb h hp
    simp only [writeDigitsAux]
    by_cases hbn : b ≤ n
    · rw [if_pos hbn]
      have hrec : bRep b dig n = bRep b dig (n / b) ++ [dig (n % b)] := bRep_ge b dig n hb hbn
      have hlen : (bRep b dig n).length = (bRep b dig (n / b)).length + 1 := by
        rw [hrec]; simp
      have hq1 : 1 ≤ (bRep b dig (n / b)).length :=
        List.length_pos.mpr (bRep_ne_nil b dig (n / b))
      have hdivlt : n / b < n := Nat.div_lt_self (by omega) hb
      rw [ih (n / b) (buf.set p (dig (n % b))) (p - 1) b hb (by omega) (by omega)]
      have e1 : p - 1 + 1 - (bRep b dig (n / b)).length
          = p + 1 - (bRep b dig n).length := by omega
      rw [e1]
      have hm := overwrite_set_append (bRep b dig (n / b)) buf
        (p + 1 - (bRep b dig n).length) (dig (n % b))
      rw [show p + 1 - (bRep b dig n).length + (bRep b dig (n / b)).length = p by omega] at hm
      rw [hm, ← hrec]
    · rw [if_neg hbn]
      rw [bRep_lt b dig n hb (by omega), Nat.mod_eq_of_lt (by omega)]
      simp [overwrite]

/-! ### formatInt: decimal path -/

theorem pfb_nowidth (size : Nat) (spec : FormatSpec) (sign : Char)
    (h : spec.width ≤ size) :
    prepareFilledBuffer size spec sign
      = ((List.replicate size uninitChar).set 0 sign, size - 1) := by
  unfold prepareFilledBuffer
  rw [if_pos h]

theorem formatInt_dec_core (w : Nat) (signed : Bool) (v : Int) (t : Char)
    (ht : t = nulChar ∨ t = 'd') :
    formatInt w signed v { type := t }
      = .ok ((if signed && decide (v < 0) then ['-'] else [])
          ++ decimalRep (if signed && decide (v < 0)
               then (2 ^ w - (v % ((2 : Int) ^ w)).toNat) % 2 ^ w
               else (v % ((2 : Int) ^ w)).toNat)) := by
  simp only [formatInt]
  rw [if_pos (show ({ type := t } : FormatSpec).type = nulChar
      ∨ ({ type := t } : FormatSpec).type = 'd' from by simpa using ht)]
  cases hB : signed && decide (v < 0) with
  | true =>
    simp only [hB, if_true]
    set a : Nat := (2 ^ w - (v % ((2 : Int) ^ w)).toNat) % 2 ^ w with ha
    have hnd : 1 ≤ countDigits a := by
      rw [countDigits_eq_length]; exact decimalRep_length_pos a
    rw [pfb_nowidth (1 + countDigits a) _ '-' (by simp)]
    simp only []
    rw [show 1 + countDigits a - 1 + 1 - countDigits a = 1 by omega]
    rw [show 1 + countDigits a = countDigits a + 1 by omega]
    rw [show (List.replicate (countDigits a + 1) uninitChar).set 0 '-'
        = '-' :: List.replicate (countDigits a) uninitChar from by
      simp [List.replicate_succ, List.set]]
    rw [formatDecimal_spec]
    rw [show (1 : Nat) = 0 + 1 from rfl, overwrite_cons_succ]
    rw [overwrite_full (decimalRep a) _ (by simp [countDigits_eq_length])]
    simp
  | false =>
    simp only [hB, Bool.false_eq_true, if_false]
    norm_num [SIGN_FLAG]
    set a : Nat := (v % ((2 : Int) ^ w)).toNat with ha
    have hnd : 1 ≤ countDigits a := by
      rw [countDigits_eq_length]; exact decimalRep_length_pos a
    rw [pfb_nowidth (countDigits a) _ nulChar (by simp)]
    dsimp only
    rw [show countDigits a - 1 + 1 - countDigits a = 0 by omega]
    rw [formatDecimal_spec]
    rw [overwrite_full (decimalRep a) _ (by simp [countDigits_eq_length])]

theorem negAbs_general (w : Nat) (v : Int) (h1 : -(2 : Int) ^ w < v) (h2 : v < 0) :
    (2 ^ w - (v % ((2 : Int) ^ w)).toNat) % 2 ^ w = v.natAbs := by
  have hp : (0 : Int) < 2 ^ w := by positivity
  have hmod : v % ((2 : Int) ^ w) = v + 2 ^ w := by
    rw [show v % ((2 : Int) ^ w) = (v + 2 ^ w) % 2 ^ w from (@Int.add_emod_self v _).symm]
    exact Int.emod_eq_of_lt (by omega) (by omega)
  rw [hmod]
  have hev : ((v + 2 ^ w).toNat : Int) = v + 2 ^ w := Int.toNat_of_nonneg (by omega)
  have hcast : (((2 : Nat) ^ w : Nat) : Int) = (2 : Int) ^ w := by push_cast; ring
  have hk0 : 0 < (v + 2 ^ w).toNat := by omega
  have hK : 0 < (2 : Nat) ^ w := pow_pos (by norm_num) w
  rw [Nat.mod_eq_of_lt (by omega)]
  omega

theorem nonnegAbs_general (w : Nat) (v : Int) (h1 : 0 ≤ v) (h2 : v < (2 : Int) ^ w) :
    (v % ((2 : Int) ^ w)).toNat = v.natAbs := by
  rw [Int.emod_eq_of_lt h1 h2]
  omega

theorem decimalRep_head_ne_zero (n : Nat) (h : n ≠ 0) :
    (decimalRep n).head? ≠ some '0' := by
  unfold decimalRep
  rw [if_neg h]
  have hne : Nat.digits 10 n ≠ [] := Nat.digits_ne_nil_iff_ne_zero.mpr h
  rw [List.head?_reverse, List.getLast?_map]
  rw [List.getLast?_eq_getLast _ hne]
  intro hcon
  simp at hcon
  have hmem : (Nat.digits 10 n).getLast hne ∈ Nat.digits 10 n := List.getLast_mem hne
  have hlt : (Nat.digits 10 n).getLast hne < 10 := Nat.digits_lt_base (by norm_num) hmem
  have hz : ((Nat.digits 10 n).getLast hne) ≠ 0 :=
    Nat.getLast_digit_ne_zero 10 h
  have hnum := digitChar_toNat _ hlt
  rw [hcon] at hnum
  simp only [show ('0').toNat = 48 from rfl] at hnum
  omega

theorem dash_not_in_decimalRep (n : Nat) : '-' ∉ decimalRep n := by
  unfold decimalRep
  split
  · decide
  · intro hmem
    simp only [List.mem_reverse, List.mem_map] at hmem
    obtain ⟨d, hd, hdc⟩ := hmem
    have hlt : d < 10 := Nat.digits_lt_base (by norm_num) hd
    have hnum := digitChar_toNat d hlt
    rw [hdc] at hnum
    simp only [show ('-').toNat = 45 from rfl] at hnum
    omega

theorem formatInt_dec_signed_range (w : Nat) (v : Int) (t : Char)
    (ht : t = nulChar ∨ t = 'd') (h1 : -(2 : Int) ^ w < v) (h2 : v < (2 : Int) ^ w) :
    formatInt w true v { type := t } = .ok (intDecChars v) := by
  rw [formatInt_dec_core w true v t ht]
  by_cases hv : v < 0
  · have habs := negAbs_general w v h1 hv
    simp [intDecChars, hv, habs]
  · have hge : 0 ≤ v := by omega
    have habs := nonnegAbs_general w v hge h2
    simp [intDecChars, hv, habs]

theorem formatInt_dec_unsigned_range (w : Nat) (n : Nat) (t : Char)
    (ht : t = nulChar ∨ t = 'd') (h2 : (n : Int) < (2 : Int) ^ w) :
    formatInt w false (n : Int) { type := t } = .ok (decimalRep n) := by
  rw [formatInt_dec_core w false (n : Int) t ht]
  rw [Int.emod_eq_of_lt (by positivity) h2]
  simp

/-- Claim C1: for every 32- or 64-bit signed or unsigned integer `n`,
formatting with the default or `d` type code produces exactly the
canonical decimal representation: a single leading `-` if and only if the
value is negative (the minimum signed values included, whose magnitude is
computed through the unsigned reinterpretation), no leading zeros except
for the value 0, and digits equal to base-10 of the magnitude. -/
theorem claim_c1_decimal (v : Int) (n : Nat) (t : Char)
    (ht : t = nulChar ∨ t = 'd') :
    (-2147483648 ≤ v → v < 2147483648 →
       formatInt 32 true v { type := t } = .ok (intDecChars v)) ∧
    (-9223372036854775808 ≤ v → v < 9223372036854775808 →
       formatInt 64 true v { type := t } = .ok (intDecChars v)) ∧
    (n < 4294967296 →
       formatInt 32 false (n : Int) { type := t } = .ok (decimalRep n)) ∧
    (n < 18446744073709551616 →
       formatInt 64 false (n : Int) { type := t } = .ok (decimalRep n)) ∧
    (v ≠ 0 → (decimalRep v.natAbs).head? ≠ some '0') ∧
    ('-' ∉ decimalRep v.natAbs) ∧
    (v < 0 → (intDecChars v).head? = some '-') ∧
    (0 ≤ v → '-' ∉ intDecChars v) := by
  refine ⟨?_, ?_, ?_, ?_, ?_, ?_, ?_, ?_⟩
  · intro ha hb
    exact formatInt_dec_signed_range 32 v t ht (by norm_num; omega) (by norm_num; omega)
  · intro ha hb
    exact formatInt_dec_signed_range 64 v t ht (by norm_num; omega) (by norm_num; omega)
  · intro ha
    exact formatInt_dec_unsigned_range 32 n t ht (by norm_num; omega)
  · intro ha
    exact formatInt_dec_unsigned_range 64 n t ht (by norm_num; omega)
  · intro hz
    exact decimalRep_head_ne_zero v.natAbs (by omega)
  · exact dash_not_in_decimalRep v.natAbs
  · intro hv
    simp [intDecChars, hv]
  · intro hv
    simp only [intDecChars, if_neg (by omega : ¬ v < 0), List.nil_append]
    exact dash_not_in_decimalRep v.natAbs

/-- Witness for C1: the theorem applied at `v = -5`, `n = 7`, default type
code, with every hypothesis discharged at the concrete input. -/
theorem claim_c1_decimal_witness :
    formatInt 32 true (-5) { type := nulChar } = .ok (intDecChars (-5)) ∧
    formatInt 64 false (7 : Int) { type := nulChar } = .ok (decimalRep 7) ∧
    intDecChars (-5) = ['-', '5'] ∧ decimalRep 7 = ['7'] := by
  refine ⟨?_, ?_, ?_, ?_⟩
  · exact (claim_c1_decimal (-5) 7 nulChar (Or.inl rfl)).1 (by norm_num) (by norm_num)
  · exact (claim_c1_decimal (-5) 7 nulChar (Or.inl rfl)).2.2.2.1 (by norm_num)
  · unfold intDecChars
    rw [if_pos (by norm_num : (-5 : Int) < 0)]
    rw [show ((-5 : Int)).natAbs = 5 from rfl, decimalRep_lt10 5 (by norm_num)]
    decide
  · rw [decimalRep_lt10 7 (by norm_num)]
    decide

/-! ### formatInt: hex and octal paths -/

theorem replTake (k m : Nat) (sgn : Char) :
    ((List.replicate (k + m) uninitChar).set 0 sgn).take k
      = (List.replicate k uninitChar).set 0 sgn := by
  cases k with
  | zero => simp
  | succ k2 =>
    rw [show k2 + 1 + m = (k2 + m) + 1 by omega]
    simp only [List.replicate_succ, List.set, List.take_succ_cons, List.take_replicate]
    rw [min_eq_left (Nat.le_add_right k2 m)]

theorem hexRegionAssemble (k : Nat) (sgn : Char) (R : List Char) :
    overwrite ((List.replicate (k + R.length) uninitChar).set 0 sgn) k R
      = ((List.replicate k uninitChar).set 0 sgn) ++ R := by
  rw [overwrite_eq R _ k (by simp)]
  rw [replTake k R.length sgn]
  rw [List.drop_eq_nil_of_le (by simp)]
  simp

theorem formatInt_hex_core (w : Nat) (signed : Bool) (v : Int) (t : Char) (hash : Bool)
    (ht : t = 'x' ∨ t = 'X') :
    formatInt w signed v { type := t, flags := if hash then HASH_FLAG else 0 }
      = .ok ((if signed && decide (v < 0) then ['-'] else [])
          ++ (if hash then ['0', t] else [])
          ++ bRep 16 (fun d => (if t = 'x' then lowHexChars else upHexChars).getD d uninitChar)
               (if signed && decide (v < 0)
                then (2 ^ w - (v % ((2 : Int) ^ w)).toNat) % 2 ^ w
                else (v % ((2 : Int) ^ w)).toNat)) := by
  have hcond1 : ¬ (t = nulChar ∨ t = 'd') := by
    rcases ht with h | h <;> subst h <;> decide
  simp only [formatInt]
  rw [if_neg (by simpa using hcond1)]
  rw [if_pos (by simpa using ht)]
  cases hash with
  | false =>
    simp only [Bool.false_eq_true, if_false]
    have hpp : ¬ ((0 : Nat) &&& HASH_FLAG ≠ 0) := by decide
    have hsf : ¬ ((0 : Nat) &&& SIGN_FLAG ≠ 0) := by decide
    simp only [hpp, hsf, if_false]
    cases hB : signed && decide (v < 0) with
    | false =>
      simp only [hB, Bool.false_eq_true, if_false]
      set a : Nat := (v % ((2 : Int) ^ w)).toNat with ha
      set dig : Nat → Char :=
        fun d => (if t = 'x' then lowHexChars else upHexChars).getD d uninitChar with hdig
      have hR : baseLen a a 16 = (bRep 16 dig a).length :=
        baseLen_spec dig a a 16 (by norm_num) (Nat.le_refl a)
      rw [hR]
      set R : List Char := bRep 16 dig a with hRdef
      have hR1 : 1 ≤ R.length := List.length_pos.mpr (bRep_ne_nil 16 dig a)
      rw [pfb_nowidth _ _ _ (by simp)]
      dsimp only
      rw [writeDigitsAux_spec dig (a + 1) a _ _ 16 (by norm_num) (by omega) (by rw [← hRdef]; omega)]
      rw [show 0 + 0 + R.length - 1 + 1 - R.length = 0 by omega]
      rw [show (0 : Nat) + 0 + R.length = 0 + R.length by omega]
      rw [hexRegionAssemble 0 nulChar R]
      simp
    | true =>
      simp only [hB, if_true]
      set a : Nat := (2 ^ w - (v % ((2 : Int) ^ w)).toNat) % 2 ^ w with ha
      set dig : Nat → Char :=
        fun d => (if t = 'x' then lowHexChars else upHexChars).getD d uninitChar with hdig
      have hR : baseLen a a 16 = (bRep 16 dig a).length :=
        baseLen_spec dig a a 16 (by norm_num) (Nat.le_refl a)
      rw [hR]
      set R : List Char := bRep 16 dig a with hRdef
      have hR1 : 1 ≤ R.length := List.length_pos.mpr (bRep_ne_nil 16 dig a)
      rw [pfb_nowidth _ _ _ (by simp)]
      dsimp only
      rw [writeDigitsAux_spec dig (a + 1) a _ _ 16 (by norm_num) (by omega)
        (by rw [← hRdef]; omega)]
      rw [show 1 + 0 + R.length - 1 + 1 - R.length = 1 by omega]
      rw [show (1 : Nat) + 0 + R.length = 1 + R.length by omega]
      rw [hexRegionAssemble 1 '-' R]
      simp
  | true =>
    simp only [if_true]
    have hpp : HASH_FLAG &&& HASH_FLAG ≠ 0 := by decide
    have hsf : ¬ (HASH_FLAG &&& SIGN_FLAG ≠ 0) := by decide
    simp only [eq_true hpp, eq_false hsf, if_true, if_false]
    cases hB : signed && decide (v < 0) with
    | false =>
      simp only [hB, Bool.false_eq_true, if_false]
      set a : Nat := (v % ((2 : Int) ^ w)).toNat with ha
      set dig : Nat → Char :=
        fun d => (if t = 'x' then lowHexChars else upHexChars).getD d uninitChar with hdig
      have hR : baseLen a a 16 = (bRep 16 dig a).length :=
        baseLen_spec dig a a 16 (by norm_num) (Nat.le_refl a)
      rw [hR]
      set R : List Char := bRep 16 dig a with hRdef
      have hR1 : 1 ≤ R.length := List.length_pos.mpr (bRep_ne_nil 16 dig a)
      rw [pfb_nowidth _ _ _ (by simp)]
      dsimp only
      rw [writeDigitsAux_spec dig (a + 1) a _ _ 16 (by norm_num) (by omega)
        (by rw [← hRdef]; omega)]
      rw [show 0 + 2 + R.length - 1 + 1 - R.length = 2 by omega]
      rw [show (0 : Nat) + 2 + R.length = 2 + R.length by omega]
      rw [hexRegionAssemble 2 nulChar R]
      rw [show 0 + 2 + R.length - 1 - R.length = 1 by omega]
      rw [show (1 : Nat) - 1 = 0 by omega]
      rw [show List.replicate 2 uninitChar = [uninitChar, uninitChar] from rfl]
      simp [List.set]
    | true =>
      simp only [hB, if_true]
      set a : Nat := (2 ^ w - (v % ((2 : Int) ^ w)).toNat) % 2 ^ w with ha
      set dig : Nat → Char :=
        fun d => (if t = 'x' then lowHexChars else upHexChars).getD d uninitChar with hdig
      have hR : baseLen a a 16 = (bRep 16 dig a).length :=
        baseLen_spec dig a a 16 (by norm_num) (Nat.le_refl a)
      rw [hR]
      set R : List Char := bRep 16 dig a with hRdef
      have hR1 : 1 ≤ R.length := List.length_pos.mpr (bRep_ne_nil 16 dig a)
      rw [pfb_nowidth _ _ _ (by simp)]
      dsimp only
      rw [writeDigitsAux_spec dig (a + 1) a _ _ 16 (by norm_num) (by omega)
        (by rw [← hRdef]; omega)]
      rw [show 1 + 2 + R.length - 1 + 1 - R.length = 3 by omega]
      rw [show (1 : Nat) + 2 + R.length = 3 + R.length by omega]
      rw [hexRegionAssemble 3 '-' R]
      rw [show 1 + 2 + R.length - 1 - R.length = 2 by omega]
      rw [show (2 : Nat) - 1 = 1 by omega]
      rw [show List.replicate 3 uninitChar = [uninitChar, uninitChar, uninitChar] from rfl]
      simp [List.set]

theorem formatInt_oct_core (w : Nat) (signed : Bool) (v : Int) (hash : Bool) :
    formatInt w signed v { type := 'o', flags := if hash then HASH_FLAG else 0 }
      = .ok ((if signed && decide (v < 0) then ['-'] else [])
          ++ (if hash then ['0'] else [])
          ++ bRep 8 digitChar
               (if signed && decide (v < 0)
                then (2 ^ w - (v % ((2 : Int) ^ w)).toNat) % 2 ^ w
                else (v % ((2 : Int) ^ w)).toNat)) := by
  simp only [formatInt]
  rw [if_neg (show ¬ (('o' = nulChar) ∨ ('o' = 'd')) from by decide)]
  rw [if_neg (show ¬ (('o' = 'x') ∨ ('o' = 'X')) from by decide)]
  rw [if_pos trivial]
  cases hash with
  | false =>
    simp only [Bool.false_eq_true, if_false]
    have hpp : ¬ ((0 : Nat) &&& HASH_FLAG ≠ 0) := by decide
    have hsf : ¬ ((0 : Nat) &&& SIGN_FLAG ≠ 0) := by decide
    simp only [eq_false hpp, eq_false hsf, if_false]
    cases hB : signed && decide (v < 0) with
    | false =>
      simp only [hB, Bool.false_eq_true, if_false]
      set a : Nat := (v % ((2 : Int) ^ w)).toNat with ha
      have hR : baseLen a a 8 = (bRep 8 digitChar a).length :=
        baseLen_spec digitChar a a 8 (by norm_num) (Nat.le_refl a)
      rw [hR]
      set R : List Char := bRep 8 digitChar a with hRdef
      have hR1 : 1 ≤ R.length := List.length_pos.mpr (bRep_ne_nil 8 digitChar a)
      rw [pfb_nowidth _ _ _ (by simp)]
      dsimp only
      rw [writeDigitsAux_spec digitChar (a + 1) a _ _ 8 (by norm_num) (by omega)
        (by rw [← hRdef]; omega)]
      rw [show 0 + 0 + R.length - 1 + 1 - R.length = 0 by omega]
      rw [show (0 : Nat) + 0 + R.length = 0 + R.length by omega]
      rw [hexRegionAssemble 0 nulChar R]
      simp
    | true =>
      simp only [hB, if_true]
      set a : Nat := (2 ^ w - (v % ((2 : Int) ^ w)).toNat) % 2 ^ w with ha
      have hR : baseLen a a 8 = (bRep 8 digitChar a).length :=
        baseLen_spec digitChar a a 8 (by norm_num) (Nat.le_refl a)
      rw [hR]
      set R : List Char := bRep 8 digitChar a with hRdef
      have hR1 : 1 ≤ R.length := List.length_pos.mpr (bRep_ne_nil 8 digitChar a)
      rw [pfb_nowidth _ _ _ (by simp)]
      dsimp only
      rw [writeDigitsAux_spec digitChar (a + 1) a _ _ 8 (by norm_num) (by omega)
        (by rw [← hRdef]; omega)]
      rw [show 1 + 0 + R.length - 1 + 1 - R.length = 1 by omega]
      rw [show (1 : Nat) + 0 + R.length = 1 + R.length by omega]
      rw [hexRegionAssemble 1 '-' R]
      simp
  | true =>
    simp only [if_true]
    have hpp : HASH_FLAG &&& HASH_FLAG ≠ 0 := by decide
    have hsf : ¬ (HASH_FLAG &&& SIGN_FLAG ≠ 0) := by decide
    simp only [eq_true hpp, eq_false hsf, if_true, if_false]
    cases hB : signed && decide (v < 0) with
    | false =>
      simp only [hB, Bool.false_eq_true, if_false]
      set a : Nat := (v % ((2 : Int) ^ w)).toNat with ha
      have hR : baseLen a a 8 = (bRep 8 digitChar a).length :=
        baseLen_spec digitChar a a 8 (by norm_num) (Nat.le_refl a)
      rw [hR]
      set R : List Char := bRep 8 digitChar a with hRdef
      have hR1 : 1 ≤ R.length := List.length_pos.mpr (bRep_ne_nil 8 digitChar a)
      rw [pfb_nowidth _ _ _ (by simp)]
      dsimp only
      rw [writeDigitsAux_spec digitChar (a + 1) a _ _ 8 (by norm_num) (by omega)
        (by rw [← hRdef]; omega)]
      rw [show 0 + 1 + R.length - 1 + 1 - R.length = 1 by omega]
      rw [show (0 : Nat) + 1 + R.length = 1 + R.length by omega]
      rw [hexRegionAssemble 1 nulChar R]
      rw [show 0 + 1 + R.length - 1 - R.length = 0 by omega]
      rw [show List.replicate 1 uninitChar = [uninitChar] from rfl]
      simp [List.set]
    | true =>
      simp only [hB, if_true]
      set a : Nat := (2 ^ w - (v % ((2 : Int) ^ w)).toNat) % 2 ^ w with ha
      have hR : baseLen a a 8 = (bRep 8 digitChar a).length :=
        baseLen_spec digitChar a a 8 (by norm_num) (Nat.le_refl a)
      rw [hR]
      set R : List Char := bRep 8 digitChar a with hRdef
      have hR1 : 1 ≤ R.length := List.length_pos.mpr (bRep_ne_nil 8 digitChar a)
      rw [pfb_nowidth _ _ _ (by simp)]
      dsimp only
      rw [writeDigitsAux_spec digitChar (a + 1) a _ _ 8 (by norm_num) (by omega)
        (by rw [← hRdef]; omega)]
      rw [show 1 + 1 + R.length - 1 + 1 - R.length = 2 by omega]
      rw [show (1 : Nat) + 1 + R.length = 2 + R.length by omega]
      rw [hexRegionAssemble 2 '-' R]
      rw [show 1 + 1 + R.length - 1 - R.length = 1 by omega]
      rw [show List.replicate 2 uninitChar = [uninitChar, uninitChar] from rfl]
      simp [List.set]

theorem hexSignedNeg (w : Nat) (v : Int) (t : Char) (hash : Bool)
    (ht : t = 'x' ∨ t = 'X') (h1 : -(2 : Int) ^ w < v) (hv : v < 0) :
    formatInt w true v { type := t, flags := if hash then HASH_FLAG else 0 }
      = .ok (['-'] ++ (if hash then ['0', t] else [])
          ++ bRep 16 (fun d => (if t = 'x' then lowHexChars else upHexChars).getD d uninitChar)
               v.natAbs) := by
  rw [formatInt_hex_core w true v t hash ht]
  have habs := negAbs_general w v h1 hv
  simp [hv, habs]

theorem octSignedNeg (w : Nat) (v : Int) (hash : Bool)
    (h1 : -(2 : Int) ^ w < v) (hv : v < 0) :
    formatInt w true v { type := 'o', flags := if hash then HASH_FLAG else 0 }
      = .ok (['-'] ++ (if hash then ['0'] else []) ++ bRep 8 digitChar v.natAbs) := by
  rw [formatInt_oct_core w true v hash]
  have habs := negAbs_general w v h1 hv
  simp [hv, habs]

theorem hexUnsigned (w : Nat) (n : Nat) (t : Char) (hash : Bool)
    (ht : t = 'x' ∨ t = 'X') (h2 : (n : Int) < (2 : Int) ^ w) :
    formatInt w false (n : Int) { type := t, flags := if hash then HASH_FLAG else 0 }
      = .ok ((if hash then ['0', t] else [])
          ++ bRep 16 (fun d => (if t = 'x' then lowHexChars else upHexChars).getD d uninitChar)
               n) := by
  rw [formatInt_hex_core w false (n : Int) t hash ht]
  rw [Int.emod_eq_of_lt (by positivity) h2]
  simp

theorem octUnsigned (w : Nat) (n : Nat) (hash : Bool) (h2 : (n : Int) < (2 : Int) ^ w) :
    formatInt w false (n : Int) { type := 'o', flags := if hash then HASH_FLAG else 0 }
      = .ok ((if hash then ['0'] else []) ++ bRep 8 digitChar n) := by
  rw [formatInt_oct_core w false (n : Int) hash]
  rw [Int.emod_eq_of_lt (by positivity) h2]
  simp

/-- Claim C2 counterexample: the 32-bit signed value `-255` formatted with
type code `x` renders as `-ff` (signed magnitude plus a minus sign slot),
not as the 8-digit two's-complement pattern `ffffff01` of its unsigned
reinterpretation `4294967041` (whose hex digits, least significant first,
are checked by the `Nat.ofDigits` conjunct). -/
theorem claim_c2_counterexample :
    formatInt 32 true (-255) { type := 'x' } = .ok ['-', 'f', 'f'] ∧
    ['-', 'f', 'f'] ≠ ['f', 'f', 'f', 'f', 'f', 'f', '0', '1'] ∧
    ((-255 : Int) % ((2 : Int) ^ 32)).toNat = 4294967041 ∧
    Nat.ofDigits 16 [1, 0, 15, 15, 15, 15, 15, 15] = 4294967041 := by
  refine ⟨rfl, by decide, by decide, by decide⟩

/-- Claim C2 (amended): with type codes `x`/`X`/`o` the digit portion of
the output is the base-16/base-8 representation of the signed magnitude
`|n|` (computed by unsigned negation), and a separate `-` sign slot *is*
emitted for negative values, with the alternate-form prefix placed between
the sign and the digits; the digit portion equals the value's unsigned bit
pattern only for the unsigned argument kinds. -/
theorem claim_c2_amended (v : Int) (n : Nat) :
    (v < 0 → -2147483648 ≤ v →
       formatInt 32 true v { type := 'x' }
           = .ok ('-' :: bRep 16 (fun d => lowHexChars.getD d uninitChar) v.natAbs) ∧
       formatInt 32 true v { type := 'X' }
           = .ok ('-' :: bRep 16 (fun d => upHexChars.getD d uninitChar) v.natAbs) ∧
       formatInt 32 true v { type := 'o' }
           = .ok ('-' :: bRep 8 digitChar v.natAbs) ∧
       formatInt 32 true v { type := 'x', flags := HASH_FLAG }
           = .ok ('-' :: '0' :: 'x'
               :: bRep 16 (fun d => lowHexChars.getD d uninitChar) v.natAbs) ∧
       formatInt 32 true v { type := 'o', flags := HASH_FLAG }
           = .ok ('-' :: '0' :: bRep 8 digitChar v.natAbs)) ∧
    (v < 0 → -9223372036854775808 ≤ v →
       formatInt 64 true v { type := 'x' }
           = .ok ('-' :: bRep 16 (fun d => lowHexChars.getD d uninitChar) v.natAbs)) ∧
    (n < 4294967296 →
       formatInt 32 false (n : Int) { type := 'x' }
           = .ok (bRep 16 (fun d => lowHexChars.getD d uninitChar) n) ∧
       formatInt 32 false (n : Int) { type := 'X', flags := HASH_FLAG }
           = .ok ('0' :: 'X' :: bRep 16 (fun d => upHexChars.getD d uninitChar) n) ∧
       formatInt 32 false (n : Int) { type := 'o', flags := HASH_FLAG }
           = .ok ('0' :: bRep 8 digitChar n)) ∧
    (n < 18446744073709551616 →
       formatInt 64 false (n : Int) { type := 'o' }
           = .ok (bRep 8 digitChar n)) := by
  refine ⟨?_, ?_, ?_, ?_⟩
  · intro hv h1
    refine ⟨?_, ?_, ?_, ?_, ?_⟩
    · simpa using hexSignedNeg 32 v 'x' false (Or.inl rfl) (by norm_num; omega) hv
    · simpa using hexSignedNeg 32 v 'X' false (Or.inr rfl) (by norm_num; omega) hv
    · simpa using octSignedNeg 32 v false (by norm_num; omega) hv
    · simpa using hexSignedNeg 32 v 'x' true (Or.inl rfl) (by norm_num; omega) hv
    · simpa using octSignedNeg 32 v true (by norm_num; omega) hv
  · intro hv h1
    simpa using hexSignedNeg 64 v 'x' false (Or.inl rfl) (by norm_num; omega) hv
  · intro h1
    refine ⟨?_, ?_, ?_⟩
    · simpa using hexUnsigned 32 n 'x' false (Or.inl rfl) (by norm_num; omega)
    · simpa using hexUnsigned 32 n 'X' true (Or.inr rfl) (by norm_num; omega)
    · simpa using octUnsigned 32 n true (by norm_num; omega)
  · intro h1
    simpa using octUnsigned 64 n false (by norm_num; omega)

/-- Witness for the amended C2: the theorem applied at `v = -5` and
`n = 10`, all hypotheses discharged at the concrete inputs. -/
theorem claim_c2_amended_witness :
    formatInt 32 true (-5) { type := 'x' } = .ok ['-', '5'] ∧
    formatInt 32 true (-5) { type := 'x', flags := HASH_FLAG } = .ok ['-', '0', 'x', '5'] ∧
    formatInt 32 false (10 : Int) { type := 'x' } = .ok ['a'] := by
  refine ⟨?_, ?_, ?_⟩
  · have h := ((claim_c2_amended (-5) 10).1 (by norm_num) (by norm_num)).1
    rw [show ((-5 : Int)).natAbs = 5 from rfl] at h
    rw [bRep_lt 16 _ 5 (by norm_num) (by norm_num)] at h
    simpa using h
  · have h := ((claim_c2_amended (-5) 10).1 (by norm_num) (by norm_num)).2.2.2.1
    rw [show ((-5 : Int)).natAbs = 5 from rfl] at h
    rw [bRep_lt 16 _ 5 (by norm_num) (by norm_num)] at h
    simpa using h
  · have h := ((claim_c2_amended (-5) 10).2.2.1 (by norm_num)).1
    rw [bRep_lt 16 _ 10 (by norm_num) (by norm_num)] at h
    simpa using h

/-! ### formatString structure -/

theorem overwrite_prefix_append (s l2 l3 : List Char) (h : s.length = l2.length) :
    overwrite (l2 ++ l3) 0 s = s ++ l3 := by
  rw [overwrite_eq s (l2 ++ l3) 0 (by simp; omega)]
  simp only [List.take_zero, List.nil_append, Nat.zero_add]
  rw [h, List.drop_left]

theorem setRange_replicate_mid (bigW start n : Nat) (f : Char) (h : start + n ≤ bigW) :
    setRange (List.replicate bigW uninitChar) start n f
      = List.replicate start uninitChar ++ List.replicate n f
          ++ List.replicate (bigW - start - n) uninitChar := by
  rw [setRange_eq n _ start f (by simp; omega)]
  rw [List.take_replicate, List.drop_replicate]
  rw [min_eq_left (by omega)]
  rw [show bigW - (start + n) = bigW - start - n by omega]

theorem formatString_struct (s : List Char) (spec : FormatSpec) :
    formatString s spec
      = (List.replicate (lpadOf spec s.length) spec.fill ++ s
          ++ List.replicate (rpadOf spec s.length) spec.fill,
         lpadOf spec s.length) := by
  by_cases hw : s.length < spec.width
  · by_cases ha1 : spec.align = .right
    · have hlp : lpadOf spec s.length = spec.width - s.length := by
        unfold lpadOf; rw [if_pos hw, if_pos ha1]
      have hrp : rpadOf spec s.length = 0 := by
        unfold rpadOf; rw [hlp, max_eq_left (by omega)]; omega
      rw [hlp, hrp]
      unfold formatString
      rw [if_pos hw, if_pos ha1]
      rw [setRange_replicate_mid spec.width 0 (spec.width - s.length) spec.fill (by omega)]
      rw [show spec.width - 0 - (spec.width - s.length) = s.length by omega]
      simp only [List.replicate_zero, List.nil_append]
      have hov := overwrite_append_left (List.replicate (spec.width - s.length) spec.fill)
        (List.replicate s.length uninitChar) s
      rw [List.length_replicate] at hov
      rw [hov, overwrite_full s _ (by simp)]
      simp
    · by_cases ha2 : spec.align = .center
      · have hlp : lpadOf spec s.length = (spec.width - s.length) / 2 := by
          unfold lpadOf; rw [if_pos hw, if_neg ha1, if_pos ha2]
        have hrp : rpadOf spec s.length
            = spec.width - s.length - (spec.width - s.length) / 2 := by
          unfold rpadOf; rw [hlp, max_eq_left (by omega)]
        rw [hlp, hrp]
        unfold formatString
        rw [if_pos hw, if_neg ha1, if_pos ha2]
        unfold fillPadding
        dsimp only
        rw [setRange_replicate_mid spec.width 0 ((spec.width - s.length) / 2) spec.fill
          (by omega)]
        simp only [List.replicate_zero, List.nil_append]
        rw [setRange_eq (spec.width - s.length - (spec.width - s.length) / 2) _
          ((spec.width - s.length) / 2 + s.length) spec.fill (by simp; omega)]
        rw [show (spec.width - s.length) / 2 + s.length
            = (List.replicate ((spec.width - s.length) / 2) spec.fill).length + s.length
            from by simp]
        rw [List.take_append]
        rw [List.take_replicate]
        rw [min_eq_left (by omega)]
        rw [List.drop_eq_nil_of_le (by simp; omega)]
        rw [List.append_nil]
        rw [List.append_assoc]
        have hov := overwrite_append_left
          (List.replicate ((spec.width - s.length) / 2) spec.fill)
          (List.replicate s.length uninitChar
            ++ List.replicate (spec.width - s.length - (spec.width - s.length) / 2) spec.fill)
          s
        rw [List.length_replicate] at hov
        rw [hov]
        rw [overwrite_prefix_append s _ _ (by simp)]
        simp
      · have hlp : lpadOf spec s.length = 0 := by
          unfold lpadOf; rw [if_pos hw, if_neg ha1, if_neg ha2]
        have hrp : rpadOf spec s.length = spec.width - s.length := by
          unfold rpadOf; rw [hlp, max_eq_left (by omega)]; omega
        rw [hlp, hrp]
        unfold formatString
        rw [if_pos hw, if_neg ha1, if_neg ha2]
        rw [setRange_replicate_mid spec.width s.length (spec.width - s.length) spec.fill
          (by omega)]
        rw [show spec.width - s.length - (spec.width - s.length) = 0 by omega]
        simp only [List.replicate_zero, List.append_nil]
        rw [overwrite_prefix_append s _ _ (by simp)]
        simp
  · have hlp : lpadOf spec s.length = 0 := by
      unfold lpadOf; rw [if_neg hw]
    have hrp : rpadOf spec s.length = 0 := by
      unfold rpadOf; rw [hlp, max_eq_right (by omega)]; omega
    rw [hlp, hrp]
    unfold formatString
    rw [if_neg hw]
    rw [overwrite_full s _ (by simp)]
    simp

/-! ### Claims C5 and C4 -/

/-- Claim C5: `FillPadding` splits the padding `pad = total - content` as
`left_pad = pad / 2` fill characters before the content and
`right_pad = pad - left_pad` after it, so `left_pad ≤ right_pad` and
`right_pad - left_pad ≤ 1`; consequently a center-aligned string field
renders as `⌊pad/2⌋` fills, content, `pad - ⌊pad/2⌋` fills. -/
theorem claim_c5_center (buf : List Char) (total content : Nat) (fill : Char)
    (s : List Char) (spec : FormatSpec) :
    (content < total →
       (fillPadding buf total content fill).2 = (total - content) / 2 ∧
       (total - content) / 2 ≤ (total - content) - (total - content) / 2 ∧
       ((total - content) - (total - content) / 2) - (total - content) / 2 ≤ 1 ∧
       (fillPadding buf total content fill).1
         = setRange (setRange buf 0 ((total - content) / 2) fill)
             ((total - content) / 2 + content)
             ((total - content) - (total - content) / 2) fill) ∧
    (spec.align = .center → s.length < spec.width →
       (formatString s spec).1
         = List.replicate ((spec.width - s.length) / 2) spec.fill ++ s
             ++ List.replicate
                  ((spec.width - s.length) - (spec.width - s.length) / 2) spec.fill) := by
  constructor
  · intro h
    exact ⟨rfl, by omega, by omega, rfl⟩
  · intro hc hw
    rw [formatString_struct]
    have hlp : lpadOf spec s.length = (spec.width - s.length) / 2 := by
      unfold lpadOf
      rw [if_pos hw, if_neg (by simp [hc]), if_pos hc]
    have hrp : rpadOf spec s.length
        = (spec.width - s.length) - (spec.width - s.length) / 2 := by
      unfold rpadOf
      rw [hlp, max_eq_left (by omega)]
    rw [hlp, hrp]

/-- Witness for C5 at `total = 10`, `content = 3` and a concrete
center-aligned string field of width 7. -/
theorem claim_c5_center_witness :
    (fillPadding (List.replicate 10 uninitChar) 10 3 '*').2 = 3 ∧
    (formatString ['a', 'b'] { align := .center, width := 7, fill := '*' }).1
      = ['*', '*', 'a', 'b', '*', '*', '*'] := by
  constructor
  · have h := (claim_c5_center (List.replicate 10 uninitChar) 10 3 '*' ['a', 'b']
      { align := .center, width := 7, fill := '*' }).1 (by norm_num)
    simpa using h.1
  · have h := (claim_c5_center (List.replicate 10 uninitChar) 10 3 '*' ['a', 'b']
      { align := .center, width := 7, fill := '*' }).2 rfl (by norm_num)
    rw [h]
    decide

theorem formatString_length (s : List Char) (spec : FormatSpec) :
    ((formatString s spec).1).length = max spec.width s.length := by
  rw [formatString_struct]
  simp only [List.length_append, List.length_replicate]
  unfold rpadOf
  by_cases hw : s.length < spec.width
  · have hlp_le : lpadOf spec s.length ≤ spec.width - s.length := by
      unfold lpadOf
      rw [if_pos hw]
      split_ifs <;> omega
    rw [max_eq_left (by omega)]
    omega
  · have hlp : lpadOf spec s.length = 0 := by unfold lpadOf; rw [if_neg hw]
    rw [max_eq_right (by omega), hlp]
    omega

theorem prepareFilledBuffer_length (size : Nat) (spec : FormatSpec) (sign : Char) :
    ((prepareFilledBuffer size spec sign).1).length = max spec.width size := by
  unfold prepareFilledBuffer fillPadding
  by_cases hw : spec.width ≤ size
  · rw [if_pos hw]
    simp [max_eq_right hw]
  · rw [if_neg hw]
    rw [max_eq_left (by omega)]
    split_ifs <;> simp [setRange_length]

theorem formatChar_length (c : Char) (spec : FormatSpec) (r : List Char)
    (h : formatChar c spec = .ok r) : r.length = max spec.width 1 := by
  simp only [formatChar, fillPadding] at h
  by_cases h1 : spec.type ≠ nulChar ∧ spec.type ≠ 'c'
  · rw [if_pos h1] at h
    simp at h
  · rw [if_neg h1] at h
    by_cases h2 : 1 < spec.width
    · rw [if_pos h2] at h
      have hmax : max spec.width 1 = spec.width := max_eq_left (by omega)
      by_cases h3 : spec.align = .right
      · rw [if_pos h3] at h
        simp only [Except.ok.injEq] at h
        rw [← h, hmax]
        simp [setRange_length]
      · rw [if_neg h3] at h
        by_cases h4 : spec.align = .center
        · rw [if_pos h4] at h
          simp only [Except.ok.injEq] at h
          rw [← h, hmax]
          simp [setRange_length]
        · rw [if_neg h4] at h
          simp only [Except.ok.injEq] at h
          rw [← h, hmax]
          simp [setRange_length]
    · rw [if_neg h2] at h
      simp only [Except.ok.injEq] at h
      rw [← h, max_eq_right (by omega)]
      rfl

/-- Claim C4: for a field of width `W` and rendered content of length `L`,
the appended region has length exactly `W` when `L ≤ W` and exactly `L`
when `L > W` (no truncation, no extra padding) — proved for the string
renderer, the integer region preparation, and the char renderer. -/
theorem claim_c4_width (s : List Char) (spec : FormatSpec) (size : Nat)
    (sign c : Char) (r : List Char) :
    (s.length ≤ spec.width → ((formatString s spec).1).length = spec.width) ∧
    (spec.width < s.length → ((formatString s spec).1).length = s.length) ∧
    (size ≤ spec.width → ((prepareFilledBuffer size spec sign).1).length = spec.width) ∧
    (spec.width < size → ((prepareFilledBuffer size spec sign).1).length = size) ∧
    (formatChar c spec = .ok r →
       (1 ≤ spec.width → r.length = spec.width) ∧ (spec.width < 1 → r.length = 1)) := by
  refine ⟨?_, ?_, ?_, ?_, ?_⟩
  · intro h
    rw [formatString_length]
    omega
  · intro h
    rw [formatString_length]
    omega
  · intro h
    rw [prepareFilledBuffer_length]
    omega
  · intro h
    rw [prepareFilledBuffer_length]
    omega
  · intro hok
    have hlen := formatChar_length c spec r hok
    exact ⟨fun h2 => by omega, fun h2 => by omega⟩

/-- Witness for C4 at concrete widths and contents. -/
theorem claim_c4_width_witness :
    ((formatString ['a', 'b'] ({ width := 5 } : FormatSpec)).1).length = 5 ∧
    ((prepareFilledBuffer 7 ({ width := 3 } : FormatSpec) nulChar).1).length = 7 := by
  constructor
  · exact (claim_c4_width ['a', 'b'] { width := 5 } 0 nulChar 'z' []).1 (by norm_num)
  · exact (claim_c4_width ['a', 'b'] { width := 3 } 7 nulChar 'z' []).2.2.2.1 (by norm_num)

/-! ### Claim C9: default alignment -/

/-- Claim C9 counterexample: a string field of width 4 with default
alignment renders content first, fill after — left-aligned, not
right-aligned as claimed — and the same holds for chars, while integers
are indeed padded on the left. -/
theorem claim_c9_counterexample :
    (formatString ['a', 'b'] ({ width := 4 } : FormatSpec)).1 = ['a', 'b', ' ', ' '] ∧
    ['a', 'b', ' ', ' '] ≠ [' ', ' ', 'a', 'b'] ∧
    render tmplWidth4 [Arg.string ['a', 'b']] = .ok ['a', 'b', ' ', ' '] ∧
    render tmplWidth4 [Arg.char 'z'] = .ok ['z', ' ', ' ', ' '] ∧
    render tmplWidth4 [Arg.int 7] = .ok [' ', ' ', ' ', '7'] := by
  exact ⟨rfl, by decide, rfl, rfl, rfl⟩

/-- Claim C9 (amended): with no explicit alignment symbol, numeric
arguments are padded like right alignment (all fill characters before the
content area prepared by `PrepareFilledBuffer`), but string and char
arguments are padded like left alignment (content first, then all fill
characters). -/
theorem claim_c9_amended (s : List Char) (spec : FormatSpec) (size : Nat)
    (sign c : Char) :
    (spec.align = .default → size < spec.width →
       ((prepareFilledBuffer size spec sign).1).take (spec.width - size)
           = List.replicate (spec.width - size) spec.fill ∧
       (prepareFilledBuffer size spec sign).2 = spec.width - 1) ∧
    (spec.align = .default → s.length < spec.width →
       (formatString s spec).1 = s ++ List.replicate (spec.width - s.length) spec.fill) ∧
    (spec.align = .default → spec.type = nulChar → 1 < spec.width →
       formatChar c spec = .ok (c :: List.replicate (spec.width - 1) spec.fill)) := by
  refine ⟨?_, ?_, ?_⟩
  · intro ha hw
    unfold prepareFilledBuffer
    rw [if_neg (by omega)]
    rw [if_neg (by simp [ha]), if_neg (by simp [ha]), if_neg (by simp [ha])]
    dsimp only
    constructor
    · rw [setRange_eq (spec.width - size) _ 0 spec.fill
        (by simp only [List.length_set, List.length_replicate]; omega)]
      simp only [List.take_zero, List.nil_append, Nat.zero_add]
      have htk := List.take_left (List.replicate (spec.width - size) spec.fill)
        (((List.replicate spec.width uninitChar).set (spec.width - size) sign).drop
          (spec.width - size))
      rw [List.length_replicate] at htk
      exact htk
    · rfl
  · intro ha hw
    rw [formatString_struct]
    have hlp : lpadOf spec s.length = 0 := by
      unfold lpadOf
      rw [if_pos hw, if_neg (by simp [ha]), if_neg (by simp [ha])]
    have hrp : rpadOf spec s.length = spec.width - s.length := by
      unfold rpadOf
      rw [hlp, max_eq_left (by omega)]
      omega
    rw [hlp, hrp]
    simp
  · intro ha ht hw
    unfold formatChar
    rw [if_neg (by simp [ht])]
    rw [if_pos hw]
    rw [if_neg (by simp [ha]), if_neg (by simp [ha])]
    rw [setRange_replicate_mid spec.width 1 (spec.width - 1) spec.fill (by omega)]
    rw [show spec.width - 1 - (spec.width - 1) = 0 by omega]
    simp only [List.replicate_zero, List.append_nil]
    rw [show List.replicate 1 uninitChar = [uninitChar] from rfl]
    simp [List.set]

/-- Witness for the amended C9 at width 4 (string) and width 3 (char). -/
theorem claim_c9_amended_witness :
    (formatString ['a', 'b'] ({ width := 4 } : FormatSpec)).1
        = ['a', 'b'] ++ List.replicate 2 ' ' ∧
    formatChar 'z' ({ width := 3 } : FormatSpec) = .ok ('z' :: List.replicate 2 ' ') := by
  constructor
  · have h := (claim_c9_amended ['a', 'b'] { width := 4 } 0 nulChar 'z').2.1 rfl (by norm_num)
    simpa using h
  · have h := (claim_c9_amended ['a', 'b'] { width := 3 } 0 nulChar 'z').2.2 rfl rfl
      (by norm_num)
    simpa using h

/-! ### Claim C7: special floating-point values -/

theorem set_at_mid (bigA bigR tl : List Char) (a b : Char) :
    ((bigA ++ (a :: tl)) ++ bigR).set bigA.length b = (bigA ++ (b :: tl)) ++ bigR := by
  rw [List.append_assoc, set_append_len, List.append_assoc]
  rfl

theorem formatString_set_head (a b : Char) (tl : List Char) (spec : FormatSpec) :
    ((formatString (a :: tl) spec).1).set ((formatString (a :: tl) spec).2) b
      = (formatString (b :: tl) spec).1 := by
  rw [formatString_struct (a :: tl) spec, formatString_struct (b :: tl) spec]
  dsimp only
  have hmid := set_at_mid (List.replicate (lpadOf spec (a :: tl).length) spec.fill)
    (List.replicate (rpadOf spec (a :: tl).length) spec.fill) tl a b
  rw [List.length_replicate] at hmid
  rw [hmid]
  simp [List.length_cons, List.append_assoc]

/-- Claim C7: for NaN and infinite floating-point values, under any
precision and any type code among `e/E/f/F/g/G` or absent, the rendered
content is the literal `nan`/`inf` (uppercased for uppercase type codes),
optionally preceded by one sign character, padded like any string; the
sign character is `-` exactly when the sign bit is set, and otherwise
`+` or space according to the sign flags. -/
theorem claim_c7_special (sb : Bool) (cls : FloatClass) (spec : FormatSpec)
    (precision : Int) (hcls : cls ≠ .finite)
    (htype : spec.type = nulChar ∨ spec.type = 'e' ∨ spec.type = 'f' ∨ spec.type = 'g'
      ∨ spec.type = 'F' ∨ spec.type = 'E' ∨ spec.type = 'G') :
    formatDouble ⟨sb, cls⟩ spec precision
      = .ok ((formatString
          ((if sb then ['-']
            else if spec.flags &&& SIGN_FLAG ≠ 0 then
              [if spec.flags &&& PLUS_FLAG ≠ 0 then '+' else ' ']
            else [])
           ++ (if cls = .nan
               then (if spec.type = 'F' ∨ spec.type = 'E' ∨ spec.type = 'G'
                     then nanUpper else nanLower)
               else (if spec.type = 'F' ∨ spec.type = 'E' ∨ spec.type = 'G'
                     then infUpper else infLower)))
          spec).1) := by
  simp only [formatDouble]
  rw [if_pos htype]
  cases cls with
  | finite => exact absurd rfl hcls
  | nan =>
    rw [if_pos rfl, if_pos rfl]
    cases sb with
    | true =>
      simp only [if_true]
      rw [if_pos (show ('-' : Char) ≠ nulChar from by decide)]
      rw [if_pos (show ('-' : Char) ≠ nulChar from by decide)]
      rw [formatString_set_head ' ' '-'
        (if spec.type = 'F' ∨ spec.type = 'E' ∨ spec.type = 'G' then nanUpper else nanLower)
        spec]
      rfl
    | false =>
      simp only [Bool.false_eq_true, if_false]
      by_cases hsf : spec.flags &&& SIGN_FLAG ≠ 0
      · rw [if_pos hsf, if_pos hsf]
        by_cases hpf : spec.flags &&& PLUS_FLAG ≠ 0
        · rw [if_pos hpf]
          rw [if_pos (show ('+' : Char) ≠ nulChar from by decide)]
          rw [if_pos (show ('+' : Char) ≠ nulChar from by decide)]
          rw [formatString_set_head ' ' '+'
            (if spec.type = 'F' ∨ spec.type = 'E' ∨ spec.type = 'G'
             then nanUpper else nanLower) spec]
          rfl
        · rw [if_neg hpf]
          rw [if_pos (show (' ' : Char) ≠ nulChar from by decide)]
          rw [if_pos (show (' ' : Char) ≠ nulChar from by decide)]
          rw [formatString_set_head ' ' ' '
            (if spec.type = 'F' ∨ spec.type = 'E' ∨ spec.type = 'G'
             then nanUpper else nanLower) spec]
          rfl
      · rw [if_neg hsf, if_neg hsf]
        rw [if_neg (show ¬ (nulChar ≠ nulChar) from by simp)]
        rw [if_neg (show ¬ (nulChar ≠ nulChar) from by simp)]
        simp
  | inf =>
    rw [if_neg (show ¬ (FloatClass.inf = FloatClass.nan) from by decide)]
    rw [if_pos rfl]
    rw [if_neg (show ¬ (FloatClass.inf = FloatClass.nan) from by decide)]
    cases sb with
    | true =>
      simp only [if_true]
      rw [if_pos (show ('-' : Char) ≠ nulChar from by decide)]
      rw [if_pos (show ('-' : Char) ≠ nulChar from by decide)]
      rw [formatString_set_head ' ' '-'
        (if spec.type = 'F' ∨ spec.type = 'E' ∨ spec.type = 'G' then infUpper else infLower)
        spec]
      rfl
    | false =>
      simp only [Bool.false_eq_true, if_false]
      by_cases hsf : spec.flags &&& SIGN_FLAG ≠ 0
      · rw [if_pos hsf, if_pos hsf]
        by_cases hpf : spec.flags &&& PLUS_FLAG ≠ 0
        · rw [if_pos hpf]
          rw [if_pos (show ('+' : Char) ≠ nulChar from by decide)]
          rw [if_pos (show ('+' : Char) ≠ nulChar from by decide)]
          rw [formatString_set_head ' ' '+'
            (if spec.type = 'F' ∨ spec.type = 'E' ∨ spec.type = 'G'
             then infUpper else infLower) spec]
          rfl
        · rw [if_neg hpf]
          rw [if_pos (show (' ' : Char) ≠ nulChar from by decide)]
          rw [if_pos (show (' ' : Char) ≠ nulChar from by decide)]
          rw [formatString_set_head ' ' ' '
            (if spec.type = 'F' ∨ spec.type = 'E' ∨ spec.type = 'G'
             then infUpper else infLower) spec]
          rfl
      · rw [if_neg hsf, if_neg hsf]
        rw [if_neg (show ¬ (nulChar ≠ nulChar) from by simp)]
        rw [if_neg (show ¬ (nulChar ≠ nulChar) from by simp)]
        simp

/-- Witness for C7: a negative NaN with the default spec and a positive
infinity with forced sign, uppercase type code, ignored precision. -/
theorem claim_c7_special_witness :
    formatDouble ⟨true, .nan⟩ {} (-1) = .ok ['-', 'n', 'a', 'n'] ∧
    formatDouble ⟨false, .inf⟩ { type := 'E', flags := 3 } 7 = .ok ['+', 'I', 'N', 'F'] := by
  constructor
  · have h := claim_c7_special true .nan {} (-1) (by decide) (Or.inl rfl)
    rw [h]
    rfl
  · have h := claim_c7_special false .inf { type := 'E', flags := 3 } 7 (by decide)
      (by decide)
    rw [h]
    rfl

/-! ### Claims C3, C6, C8, C10 -/

/-- Claim C3: rendering 255 with the specifier `#06x` yields `000xff` —
the numeric-alignment branch of `PrepareFilledBuffer` inserts the zero
fill *before* the region where the digits and then the `0x` prefix are
written, so the prefix ends up adjacent to the digits, after the fill —
not `0x00ff` as the specification states (fill between prefix and
digits). -/
theorem claim_c3_hash_zero_hex :
    render tmplHashZeroHex [Arg.int 255] = .ok ['0', '0', '0', 'x', 'f', 'f'] ∧
    ['0', '0', '0', 'x', 'f', 'f'] ≠ ['0', 'x', '0', '0', 'f', 'f'] ∧
    formatInt 32 true 255
        ({ align := .numeric, flags := HASH_FLAG, width := 6, type := 'x', fill := '0' }
          : FormatSpec)
      = .ok ['0', '0', '0', 'x', 'f', 'f'] := by
  exact ⟨rfl, by decide, rfl⟩

/-- Claim C8: the wraparound check `new_value < value` in `ParseUInt` is
incomplete.  The digit run `10000000000` (`10^10`, which does not fit in
32 bits) parses silently to `1410065408 = 10^10 mod 2^32` — no
`NumberTooBig` error — and the wrapped value also passes the `> INT_MAX`
width check in `DoFormat`.  (For contrast, `4294967296` does trip the
check.) -/
theorem claim_c8_overflow :
    parseUIntAux 1 ("10000000000".data ++ [rbrace]) 0 = .ok (1410065408, [rbrace]) ∧
    1410065408 = 10000000000 % 2 ^ 32 ∧
    1410065408 ≤ 2147483647 ∧
    parseUIntAux 1 ("4294967296".data ++ [rbrace]) 0
        = .error (.formatError msgNumberTooBig) := by
  exact ⟨rfl, by norm_num, by norm_num, rfl⟩

/-- Claim C10: `Array::append` passes `num_elements` instead of
`size_ + num_elements` to `Grow`, so a buffer at `size = capacity = 500`
appended with 1000 elements ends with `size = 1500 > capacity = 1000`,
breaking the `size ≤ capacity` invariant (and making the subsequent copy
write past the allocation). -/
theorem claim_c10_append_bug :
    arrResize arrInit 500 = { size := 500, capacity := 500 } ∧
    arrAppend { size := 500, capacity := 500 } 1000 = { size := 1500, capacity := 1000 } ∧
    ¬ arrInv (arrAppend { size := 500, capacity := 500 } 1000) ∧
    arrInv arrInit := by
  refine ⟨rfl, rfl, ?_, ?_⟩
  · unfold arrInv
    decide
  · unfold arrInv
    decide

/-- The operations other than `append` do preserve the invariant
(supporting evidence that the intended invariant is `size ≤ capacity` and
`append` is the slip). -/
theorem arrInv_preserved (a : ArrayBuf) (n : Nat) :
    (arrInv a → arrInv (arrPushBack a)) ∧
    arrInv (arrResize a n) ∧
    (arrInv a → arrInv (arrReserve a n)) := by
  refine ⟨?_, ?_, ?_⟩
  · intro h
    unfold arrInv at h
    simp only [arrInv, arrPushBack, arrGrow]
    split_ifs with h1 <;> first | omega | (dsimp only; omega)
  · simp only [arrInv, arrResize, arrGrow]
    split_ifs with h1 <;> first | omega | (dsimp only; omega)
  · intro h
    unfold arrInv at h
    simp only [arrInv, arrReserve, arrGrow]
    split_ifs with h1 <;> first | omega | (dsimp only; omega)

/-- Claim C6: once a template has used automatic indexing
(`next_arg_index_ > 0`), any manually indexed field fails with the
switch error, and once it has used manual indexing
(`next_arg_index_ = -1`), any automatic field fails with the converse
switch error; a successful `ParseArgIndex` either increments the
automatic cursor or pins it to `-1`, so the two modes cannot mix.  In
particular both concrete templates fail with the mode-conflict message. -/
theorem claim_c6_mode_conflict :
    (∀ (args : List Arg) (next nOpen : Int) (s : List Char),
       next < 0 → (cur s = rbrace ∨ cur s = ':') →
       parseArgIndexE args next nOpen s = .error (reportError nOpen s msgManualToAuto)) ∧
    (∀ (args : List Arg) (next nOpen : Int) (s : List Char),
       0 < next → isDigitChar (cur s) = true →
       parseArgIndexE args next nOpen s = .error (reportError nOpen s msgAutoToManual)) ∧
    (∀ (args : List Arg) (next nOpen : Int) (s : List Char) (a : Arg) (n2 : Int)
       (s2 : List Char),
       parseArgIndexE args next nOpen s = .ok (a, n2, s2) → n2 = next + 1 ∨ n2 = -1) ∧
    render tmplManualAuto [Arg.int 1, Arg.int 2]
        = .error (.formatError msgManualToAuto) ∧
    render tmplAutoManual [Arg.int 1, Arg.int 2]
        = .error (.formatError msgAutoToManual) := by
  refine ⟨?_, ?_, ?_, rfl, rfl⟩
  · intro args next nOpen s hneg hcur
    unfold parseArgIndexE
    have hnd : ¬ isDigitChar (cur s) = true := by
      rcases hcur with h | h <;> rw [h] <;> decide
    rw [if_pos hnd]
    rw [if_neg (show ¬ (cur s ≠ rbrace ∧ cur s ≠ ':') from by
      rcases hcur with h | h <;> simp [h])]
    rw [if_pos hneg]
  · intro args next nOpen s hpos hdig
    unfold parseArgIndexE
    rw [if_neg (by simp [hdig])]
    rw [if_pos hpos]
  · intro args next nOpen s a n2 s2 h
    unfold parseArgIndexE at h
    by_cases hd : ¬ isDigitChar (cur s) = true
    · rw [if_pos hd] at h
      by_cases h1 : cur s ≠ rbrace ∧ cur s ≠ ':'
      · rw [if_pos h1] at h
        simp at h
      · rw [if_neg h1] at h
        by_cases h2 : next < 0
        · rw [if_pos h2] at h
          simp at h
        · rw [if_neg h2] at h
          rcases hget : args.get? next.toNat with _ | a2
          · rw [hget] at h
            simp at h
          · rw [hget] at h
            dsimp only at h
            simp only [Except.ok.injEq, Prod.mk.injEq] at h
            exact Or.inl h.2.1.symm
    · rw [if_neg hd] at h
      by_cases h1 : 0 < next
      · rw [if_pos h1] at h
        simp at h
      · rw [if_neg h1] at h
        rcases hpu : parseUIntAux nOpen s 0 with e | p
        · rw [hpu] at h
          simp at h
        · rw [hpu] at h
          obtain ⟨idx, rest⟩ := p
          dsimp only at h
          by_cases hlen : args.length ≤ idx
          · rw [if_pos hlen] at h
            simp at h
          · rw [if_neg hlen] at h
            rcases hget : args.get? idx with _ | a2
            · rw [hget] at h
              simp at h
            · rw [hget] at h
              dsimp only at h
              simp only [Except.ok.injEq, Prod.mk.injEq] at h
              exact Or.inr h.2.1.symm

/-- Witness for C6: the state-machine conjuncts applied at concrete
cursors and inputs. -/
theorem claim_c6_mode_conflict_witness :
    parseArgIndexE [Arg.int 1] (-1) 1 [rbrace]
        = .error (reportError 1 [rbrace] msgManualToAuto) ∧
    parseArgIndexE [Arg.int 1] 1 1 ['0', rbrace]
        = .error (reportError 1 ['0', rbrace] msgAutoToManual) := by
  constructor
  · exact claim_c6_mode_conflict.1 [Arg.int 1] (-1) 1 [rbrace] (by norm_num) (Or.inl rfl)
  · exact claim_c6_mode_conflict.2.1 [Arg.int 1] 1 1 ['0', rbrace] (by norm_num) (by decide)
